import Mathlib

/-!
Verification of the perishable-inventory ledger and replenishment engine of
the smart-stock-ordering backend.  The definitions below are a shallow
embedding of the Python source:

* `backend/app/ml/inventory.py` (`InventoryManager`): forecast aggregation,
  ingredient-requirement lines, supplier grouping;
* `backend/app/api/inventory_management.py`: batch store, FIFO deduction,
  stock adjustments, low-stock alerts, stocktake;
* `backend/app/api/dishes.py` (`record_dish_sale`): sale-driven ingredient
  deduction with the critical/non-critical stock check.

Python floats are modelled as `ℚ` (every constant in the source and in the
statements is exactly representable and no comparison in scope is affected
by binary rounding), Python dicts as insertion-ordered association lists,
dates as `yyyymmdd` naturals (with `date.max` as `99991231`), and a raised
exception as `Except.error`.
-/

namespace SmartStock

/-- `d.get(k)` on an insertion-ordered dict modelled as an association list. -/
def alookup {α : Type} (m : List (String × α)) (k : String) : Option α :=
  (m.find? (fun p => p.1 == k)).map (·.2)

/-- `d.get(k, dflt)`. -/
def alookupD {α : Type} (m : List (String × α)) (k : String) (dflt : α) : α :=
  (alookup m k).getD dflt

/-- `d[k] = d.get(k, 0) + v` on an insertion-ordered dict: update in place
when the key is present, append otherwise. -/
def addTo (m : List (String × ℚ)) (k : String) (v : ℚ) : List (String × ℚ) :=
  if (m.find? (fun p => p.1 == k)).isSome then
    m.map (fun p => if p.1 == k then (p.1, p.2 + v) else p)
  else
    m ++ [(k, v)]

/-- Python `int(q)`: truncation toward zero. -/
def pyInt (q : ℚ) : ℤ :=
  if 0 ≤ q then ⌊q⌋ else -⌊-q⌋

/-- Python `a / b`, which raises `ZeroDivisionError` when `b = 0`. -/
def pyDiv (a b : ℚ) : Except String ℚ :=
  if b = 0 then .error "ZeroDivisionError" else .ok (a / b)

/-! ## `ml/inventory.py`: InventoryManager -/

/-- One entry of `InventoryManager.suppliers`. -/
structure SupplierInfo where
  supplier : String
  pack_size : ℚ
  cost_per_pack : ℚ
  min_order : ℤ
  lead_time_days : ℚ
deriving DecidableEq

/-- `InventoryManager.menu_items` as initialised in `__init__`. -/
def defaultMenuItems : List (String × List (String × ℚ)) :=
  [("coffee", [("coffee_beans", 0.025), ("milk", 0.1), ("sugar", 0.01),
               ("cup", 1), ("lid", 1)]),
   ("latte", [("coffee_beans", 0.025), ("milk", 0.25), ("sugar", 0.01),
              ("cup", 1), ("lid", 1)]),
   ("cappuccino", [("coffee_beans", 0.025), ("milk", 0.2), ("sugar", 0.01),
                   ("cup", 1), ("lid", 1)]),
   ("sandwich", [("bread", 2), ("cheese", 0.05), ("ham", 0.08),
                 ("lettuce", 0.02), ("tomato", 0.03), ("mayo", 0.02),
                 ("wrapping_paper", 1)]),
   ("croissant", [("flour", 0.08), ("butter", 0.04), ("sugar", 0.02),
                  ("yeast", 0.005), ("egg", 0.5), ("wrapping_paper", 1)]),
   ("muffin", [("flour", 0.06), ("sugar", 0.03), ("egg", 0.5),
               ("milk", 0.05), ("butter", 0.02), ("wrapping_paper", 1)])]

/-- `InventoryManager.suppliers` as initialised in `__init__`. -/
def defaultSuppliers : List (String × SupplierInfo) :=
  [("coffee_beans", ⟨"Coffee Supply Co", 10, 120.0, 1, 3⟩),
   ("milk", ⟨"Dairy Fresh", 4, 8.0, 1, 1⟩),
   ("sugar", ⟨"Sweet Supplies", 25, 45.0, 1, 2⟩),
   ("bread", ⟨"Bakery Direct", 20, 3.5, 1, 1⟩),
   ("cheese", ⟨"Dairy Fresh", 5, 35.0, 1, 2⟩),
   ("ham", ⟨"Meat Market", 2, 18.0, 1, 2⟩),
   ("lettuce", ⟨"Fresh Produce", 1, 4.0, 1, 1⟩),
   ("tomato", ⟨"Fresh Produce", 2, 6.0, 1, 1⟩),
   ("mayo", ⟨"Condiment Co", 2, 12.0, 1, 3⟩),
   ("flour", ⟨"Bakery Direct", 25, 30.0, 1, 2⟩),
   ("butter", ⟨"Dairy Fresh", 5, 40.0, 1, 2⟩),
   ("yeast", ⟨"Bakery Direct", 1, 15.0, 1, 2⟩),
   ("egg", ⟨"Dairy Fresh", 30, 12.0, 1, 1⟩),
   ("cup", ⟨"Packaging Plus", 100, 25.0, 1, 3⟩),
   ("lid", ⟨"Packaging Plus", 100, 20.0, 1, 3⟩),
   ("wrapping_paper", ⟨"Packaging Plus", 500, 15.0, 1, 3⟩)]

/-- The `forecast_data` argument of `calculate_ingredient_requirements`. -/
structure ForecastData where
  dates : List String
  predicted_sales : List ℚ
deriving DecidableEq

/-- One iteration of the first loop of `calculate_ingredient_requirements`:
derive the four menu-item counts from one day's predicted sales and add each
into the `total_menu_items` dict. -/
def dailyStep (m : List (String × ℚ)) (daily_sales : ℚ) : List (String × ℚ) :=
  let coffee_count := pyInt (daily_sales * 0.4 / 4.5)
  let latte_count := pyInt (daily_sales * 0.3 / 5.5)
  let sandwich_count := pyInt (daily_sales * 0.2 / 8.0)
  let pastry_count := pyInt (daily_sales * 0.1 / 3.5)
  let m := addTo m "coffee" (coffee_count : ℚ)
  let m := addTo m "latte" (latte_count : ℚ)
  let m := addTo m "sandwich" (sandwich_count : ℚ)
  addTo m "croissant" (pastry_count : ℚ)

/-- The `total_menu_items` dict after the first loop: one `dailyStep` per
entry of `forecast_data['dates']`, reading `predicted_sales[i]`. -/
def totalMenuItems (f : ForecastData) : List (String × ℚ) :=
  ((List.range f.dates.length).map (fun i => f.predicted_sales.getD i 0)).foldl
    dailyStep []

/-- The `ingredient_requirements` dict built by the second loop: each menu
item present in the `menu_items` config contributes
`quantity * amount_per_item` per ingredient; absent menu items are skipped
by the `if menu_item in self.menu_items` guard. -/
def ingredientRequirementsOf (menuCfg : List (String × List (String × ℚ)))
    (counts : List (String × ℚ)) : List (String × ℚ) :=
  counts.foldl (fun acc p =>
    match alookup menuCfg p.1 with
    | none => acc
    | some bom => bom.foldl (fun acc2 q => addTo acc2 q.1 (p.2 * q.2)) acc) []

/-- One element of the `supplier_orders` list returned by
`calculate_ingredient_requirements`. -/
structure OrderLine where
  ingredient_name : String
  current_stock : ℚ
  required_amount : ℚ
  pack_size : ℚ
  packs_needed : ℤ
  total_cost : ℚ
  supplier : String
  urgency : String
  lead_time_days : ℚ
deriving DecidableEq

/-- The urgency if/elif chain of `calculate_ingredient_requirements`. -/
def urgencyOf (days_until_stockout lead_time_days : ℚ) : String :=
  if days_until_stockout < lead_time_days then "critical"
  else if days_until_stockout < lead_time_days + 3 then "high"
  else if days_until_stockout < lead_time_days + 7 then "medium"
  else "low"

/-- Body of the third loop of `calculate_ingredient_requirements` for one
ingredient whose supplier entry is `sup`: produce an order line when the net
requirement is positive, nothing otherwise.  Divisions are total `ℚ`
division; every theorem that depends on a quotient carries the positivity
hypotheses that make it agree with the Python expression. -/
def requirementLine (sup : SupplierInfo) (numDates : ℕ)
    (current_stock_amount required_amount : ℚ) (ingredient : String) :
    Option OrderLine :=
  let net_requirement := max 0 (required_amount - current_stock_amount)
  if 0 < net_requirement then
    let packs0 := pyInt ((net_requirement + sup.pack_size - 1) / sup.pack_size)
    let packs_needed := max packs0 sup.min_order
    let total_cost := (packs_needed : ℚ) * sup.cost_per_pack
    let days_until_stockout :=
      current_stock_amount / (required_amount / (numDates : ℚ))
    some { ingredient_name := ingredient,
           current_stock := current_stock_amount,
           required_amount := required_amount,
           pack_size := sup.pack_size,
           packs_needed := packs_needed,
           total_cost := total_cost,
           supplier := sup.supplier,
           urgency := urgencyOf days_until_stockout sup.lead_time_days,
           lead_time_days := sup.lead_time_days }
  else none

/-- `InventoryManager.calculate_ingredient_requirements`, with the mutable
`self.menu_items` / `self.suppliers` passed explicitly. -/
def calculate_ingredient_requirements
    (menuCfg : List (String × List (String × ℚ)))
    (supCfg : List (String × SupplierInfo))
    (f : ForecastData) (current_stock : List (String × ℚ)) : List OrderLine :=
  (ingredientRequirementsOf menuCfg (totalMenuItems f)).foldl (fun acc p =>
    match alookup supCfg p.1 with
    | none => acc
    | some sup =>
      match requirementLine sup f.dates.length (alookupD current_stock p.1 0)
          p.2 p.1 with
      | none => acc
      | some line => acc ++ [line]) []

/-- One entry of a supplier group's `order_items`. -/
structure GroupItem where
  ingredient : String
  packs_needed : ℤ
  pack_size : ℚ
  cost_per_pack : ℚ
  total_cost : ℚ
  urgency : String
deriving DecidableEq

/-- One supplier group built by `generate_supplier_orders`. -/
structure SupplierGroup where
  supplier_name : String
  order_items : List GroupItem
  total_cost : ℚ
  order_status : String
  notes : String
deriving DecidableEq

/-- One iteration of `generate_supplier_orders`: ensure the group for
`req['supplier']` exists, then append the item — computing
`cost_per_pack = req['total_cost'] / req['packs_needed']` with Python
division — and add the line's cost into the group total. -/
def addToGroups (groups : List (String × SupplierGroup)) (req : OrderLine) :
    Except String (List (String × SupplierGroup)) := do
  let groups :=
    if (groups.find? (fun p => p.1 == req.supplier)).isSome then groups
    else groups ++ [(req.supplier,
      { supplier_name := req.supplier, order_items := [], total_cost := 0,
        order_status := "pending", notes := "" })]
  let cpp ← pyDiv req.total_cost (req.packs_needed : ℚ)
  let item : GroupItem :=
    { ingredient := req.ingredient_name, packs_needed := req.packs_needed,
      pack_size := req.pack_size, cost_per_pack := cpp,
      total_cost := req.total_cost, urgency := req.urgency }
  return groups.map (fun p =>
    if p.1 == req.supplier then
      (p.1, { p.2 with order_items := p.2.order_items ++ [item],
                       total_cost := p.2.total_cost + req.total_cost })
    else p)

/-- `InventoryManager.generate_supplier_orders`. -/
def generate_supplier_orders (ingredient_requirements : List OrderLine) :
    Except String (List SupplierGroup) := do
  let groups ← ingredient_requirements.foldlM addToGroups []
  return groups.map (·.2)

/-- `confirm_ai_order` in `api/ordering.py`: passes the caller-supplied
`ingredient_requirements` straight into `generate_supplier_orders`; any
exception becomes an HTTP 500 response. -/
def confirm_ai_order (ingredient_requirements : List OrderLine) :
    Except String (List SupplierGroup × ℚ) :=
  match generate_supplier_orders ingredient_requirements with
  | .ok orders => .ok (orders, (orders.map (·.total_cost)).sum)
  | .error _ => .error "HTTP 500: Order confirmation error"

/-! ## `api/inventory_management.py`: batch store, ledger, alerts -/

/-- `date.max` in the `yyyymmdd` encoding of dates. -/
def dateMax : ℕ := 99991231

/-- One document of the `inventory` collection (a stock batch). -/
structure Batch where
  id : ℕ
  product_id : String
  quantity : ℚ
  expiry_date : Option ℕ
  received_date : Option ℕ
deriving DecidableEq

/-- The sort key of `get_fifo_items`: `x.get('expiry_date') or date.max`. -/
def expiryKey (b : Batch) : ℕ :=
  b.expiry_date.getD dateMax

/-- Insert one element into an already sorted list, after any element whose
key is not larger (the placement a stable sort gives equal keys). -/
def insertByKey {α : Type} (key : α → ℕ) (a : α) : List α → List α
  | [] => [a]
  | b :: bs => if key b ≤ key a then b :: insertByKey key a bs else a :: b :: bs

/-- Stable sort by a `ℕ` key, modelling Python's stable `list.sort`. -/
def sortByKey {α : Type} (key : α → ℕ) (xs : List α) : List α :=
  xs.foldl (fun acc a => insertByKey key a acc) []

/-- `get_fifo_items`: the product's inventory documents sorted by expiry
date, missing expiries last (`date.max`), equal keys in store order. -/
def get_fifo_items (inventory : List Batch) (product_id : String) :
    List Batch :=
  sortByKey expiryKey (inventory.filter (fun b => b.product_id == product_id))

/-- `calculate_total_stock`: sum of the product's batch quantities. -/
def calculate_total_stock (inventory : List Batch) (product_id : String) : ℚ :=
  ((inventory.filter (fun b => b.product_id == product_id)).map
    (·.quantity)).sum

/-- The FIFO deduction loop shared by `adjust_stock` and `create_stocktake`:
walk the FIFO list; delete a batch it covers entirely, decrement the first
batch it only partly needs, stop when nothing remains to deduct. -/
def consumeFifo (remaining : ℚ) : List Batch → List Batch
  | [] => []
  | b :: rest =>
    if remaining ≤ 0 then b :: rest
    else if b.quantity ≤ remaining then consumeFifo (remaining - b.quantity) rest
    else { b with quantity := b.quantity - remaining } :: rest

/-- The whole store after FIFO-deducting `amount` from one product: other
products' documents are untouched, the product's documents are the survivors
of the walk. -/
def applyFifoDeduction (inventory : List Batch) (product_id : String)
    (amount : ℚ) : List Batch :=
  inventory.filter (fun b => b.product_id != product_id) ++
    consumeFifo amount (get_fifo_items inventory product_id)

/-- One document of the `stock_adjustments` collection. -/
structure Adjustment where
  product_id : String
  adjustment_type : String
  quantity_change : ℚ
  reason : Option String
  reference_id : Option String
deriving DecidableEq

/-- One document of the `low_stock_alerts` collection. -/
structure Alert where
  id : ℕ
  product_id : String
  alert_threshold : ℚ
  current_stock : ℚ
  is_acknowledged : Bool
deriving DecidableEq

/-- The persistent collections the inventory endpoints touch.  `next_id`
stands in for the fresh uuids Firestore document ids are drawn from. -/
structure InvState where
  products : List String
  inventory : List Batch
  stock_adjustments : List Adjustment
  low_stock_alerts : List Alert
  next_id : ℕ
deriving DecidableEq

/-- `create_stock_adjustment`: append one ledger record. -/
def create_stock_adjustment (s : InvState) (product_id : String)
    (quantity_change : ℚ) (adjustment_type : String) (reason : Option String)
    (reference_id : Option String) : InvState :=
  { s with stock_adjustments := s.stock_adjustments ++
      [{ product_id := product_id, adjustment_type := adjustment_type,
         quantity_change := quantity_change, reason := reason,
         reference_id := reference_id }] }

/-- Whether an unacknowledged alert for the product exists. -/
def hasUnacknowledged (s : InvState) (product_id : String) : Bool :=
  s.low_stock_alerts.any
    (fun a => a.product_id == product_id && !a.is_acknowledged)

/-- `check_low_stock_alerts(product_id)`: skip a missing product document;
otherwise create an alert exactly when current stock is at or below the
fixed threshold `5.0` and no unacknowledged alert for the product exists. -/
def check_low_stock_alerts (s : InvState) (product_id : String) : InvState :=
  if product_id ∈ s.products then
    let current_stock := calculate_total_stock s.inventory product_id
    let threshold : ℚ := 5.0
    if current_stock ≤ threshold then
      if hasUnacknowledged s product_id then s
      else
        { s with
          low_stock_alerts := s.low_stock_alerts ++
            [{ id := s.next_id, product_id := product_id,
               alert_threshold := threshold, current_stock := current_stock,
               is_acknowledged := false }],
          next_id := s.next_id + 1 }
    else s
  else s

/-- The request body of `POST /inventory/adjust`. -/
structure StockAdjustmentRequest where
  product_id : String
  adjustment_type : String
  quantity_change : ℚ
  reason : Option String
  reference_id : Option String
deriving DecidableEq

/-- The first two steps of `adjust_stock`: record the adjustment (with the
requested delta), then FIFO-deduct `abs(quantity_change)` when the delta is
negative — a positive delta mutates no batch. -/
def adjust_stock_pre (s : InvState) (adjustment : StockAdjustmentRequest) :
    InvState :=
  let s := create_stock_adjustment s adjustment.product_id
    adjustment.quantity_change adjustment.adjustment_type adjustment.reason
    adjustment.reference_id
  if adjustment.quantity_change < 0 then
    { s with inventory := (applyFifoDeduction s.inventory
        adjustment.product_id (-adjustment.quantity_change)) }
  else s

/-- `adjust_stock`: the two mutation steps followed by the low-stock check. -/
def adjust_stock (s : InvState) (adjustment : StockAdjustmentRequest) :
    InvState :=
  check_low_stock_alerts (adjust_stock_pre s adjustment)
    adjustment.product_id

/-- The request body of `POST /inventory`. -/
structure InventoryItemRequest where
  product_id : String
  quantity : ℚ
  expiry_date : Option ℕ
  received_date : Option ℕ
deriving DecidableEq

/-- `add_inventory_item`: store a new batch, record a `received` adjustment
of `+quantity`, then run the low-stock check.  `today` supplies
`date.today()` for a missing received date. -/
def add_inventory_item (s : InvState) (item : InventoryItemRequest)
    (today : ℕ) : InvState :=
  let batch : Batch :=
    { id := s.next_id, product_id := item.product_id,
      quantity := item.quantity, expiry_date := item.expiry_date,
      received_date := some (item.received_date.getD today) }
  let s := { s with inventory := s.inventory ++ [batch],
                    next_id := s.next_id + 1 }
  let s := create_stock_adjustment s item.product_id item.quantity "received"
    (some "Inventory item added") none
  check_low_stock_alerts s item.product_id

/-- The per-product body of the `create_stocktake` loop: when the physical
count differs from computed stock, record a `stocktake` adjustment of the
difference and, only for a negative difference, FIFO-deduct it. -/
def stocktakeEntry (s : InvState) (product_id : String)
    (actual_quantity : ℚ) : InvState :=
  let current_stock := calculate_total_stock s.inventory product_id
  let difference := actual_quantity - current_stock
  if difference ≠ 0 then
    let s := create_stock_adjustment s product_id difference "stocktake"
      (some "Stocktake adjustment") none
    if difference < 0 then
      { s with inventory := (applyFifoDeduction s.inventory product_id
          (-difference)) }
    else s
  else s

/-- `create_stocktake`: apply every entry, then run the low-stock check for
every product of the request. -/
def create_stocktake (s : InvState) (stocktake_data : List (String × ℚ)) :
    InvState :=
  let s := stocktake_data.foldl (fun s e => stocktakeEntry s e.1 e.2) s
  stocktake_data.foldl (fun s e => check_low_stock_alerts s e.1) s

/-- Outcome of `POST /alerts/low-stock/{alert_id}/acknowledge`: the handler
returns success, or turns any storage exception into an HTTP error with the
given status code. -/
inductive AckResult where
  | success : AckResult
  | httpError : ℕ → AckResult
deriving DecidableEq

/-- `acknowledge_low_stock_alert`: an unconditional Firestore `update` that
sets the acknowledged flag.  On a missing document the store raises, and the
handler's `except` answers HTTP 500 ("Failed to acknowledge alert"). -/
def acknowledge_low_stock_alert (s : InvState) (alert_id : ℕ) :
    InvState × AckResult :=
  if s.low_stock_alerts.any (fun a => a.id == alert_id) then
    ({ s with low_stock_alerts := s.low_stock_alerts.map (fun a =>
        if a.id == alert_id then { a with is_acknowledged := true } else a) },
     .success)
  else (s, .httpError 500)

/-! ## `api/dishes.py`: record_dish_sale -/

/-- One document of the `ingredients` collection. -/
structure Ingredient where
  id : String
  name : String
  current_stock : ℚ
  cost_per_unit : ℚ
deriving DecidableEq

/-- One document of the `dish_ingredients` collection. -/
structure DishIngredient where
  ingredient_id : String
  quantity_needed : ℚ
  is_critical : Option Bool
deriving DecidableEq

/-- One document written to `stock_transactions`. -/
structure StockTransaction where
  ingredient_id : String
  quantity_change : ℚ
  total_cost : ℚ
deriving DecidableEq

/-- The committed effect of a successful `record_dish_sale`. -/
structure SaleOutcome where
  ingredients : List Ingredient
  transactions : List StockTransaction
  ingredient_cost : ℚ
deriving DecidableEq

/-- The error raised for a critical ingredient without enough stock
(HTTP 400, "Insufficient stock for ..."). -/
inductive SaleError where
  | insufficientStock : String → SaleError
deriving DecidableEq

/-- First loop of `record_dish_sale`: skip ingredients without a document;
fail the whole sale when a critical ingredient lacks stock; collect a
deduction only when stock covers the need. -/
def planDeductions (ingredients : List Ingredient)
    (dish_ingredients : List DishIngredient) (quantity_sold : ℚ) :
    Except SaleError (ℚ × List (String × ℚ × ℚ)) :=
  dish_ingredients.foldlM (fun acc di =>
    match ingredients.find? (fun ing => ing.id == di.ingredient_id) with
    | none => .ok acc
    | some ingredient_data =>
      let total_needed := di.quantity_needed * quantity_sold
      if di.is_critical.getD true &&
          decide (ingredient_data.current_stock < total_needed) then
        .error (.insufficientStock ingredient_data.name)
      else
        let cost := total_needed * ingredient_data.cost_per_unit
        let deductions :=
          if total_needed ≤ ingredient_data.current_stock then
            acc.2 ++ [(di.ingredient_id, total_needed, cost)]
          else acc.2
        .ok (acc.1 + cost, deductions)) (0, [])

/-- `record_dish_sale`: plan the deductions, then commit them in one batch —
decrement each deducted ingredient's stock and write one `sale` stock
transaction per deduction. -/
def record_dish_sale (ingredients : List Ingredient)
    (dish_ingredients : List DishIngredient) (quantity_sold : ℚ) :
    Except SaleError SaleOutcome := do
  let (total_ingredient_cost, stock_deductions) ←
    planDeductions ingredients dish_ingredients quantity_sold
  let final := stock_deductions.foldl (fun inv d =>
    inv.map (fun ing =>
      if ing.id == d.1 then
        { ing with current_stock := ing.current_stock - d.2.1 }
      else ing)) ingredients
  return { ingredients := final,
           transactions := stock_deductions.map (fun d =>
             { ingredient_id := d.1, quantity_change := -d.2.1,
               total_cost := d.2.2 }),
           ingredient_cost := total_ingredient_cost }

/-! ## Helper lemmas -/

theorem insertByKey_perm {α : Type} (key : α → ℕ) (a : α) (xs : List α) :
    List.Perm (insertByKey key a xs) (a :: xs) := by
  induction xs with
  | nil => simp [insertByKey]
  | cons b bs ih =>
    unfold insertByKey
    split
    · exact ((ih.cons b).trans (List.Perm.swap a b bs)).symm.symm
    · exact List.Perm.refl _

theorem foldl_insertByKey_perm {α : Type} (key : α → ℕ) (xs acc : List α) :
    List.Perm (xs.foldl (fun acc a => insertByKey key a acc) acc) (acc ++ xs) := by
  induction xs generalizing acc with
  | nil => simp
  | cons x l ih =>
    refine (ih (insertByKey key x acc)).trans ?_
    have h1 : List.Perm (insertByKey key x acc ++ l) ((x :: acc) ++ l) :=
      (insertByKey_perm key x acc).append_right l
    refine h1.trans ?_
    simpa using List.perm_middle.symm

theorem sortByKey_perm {α : Type} (key : α → ℕ) (xs : List α) :
    List.Perm (sortByKey key xs) xs := by
  simpa using foldl_insertByKey_perm key xs []

theorem pairwise_insertByKey {α : Type} (key : α → ℕ) (a : α) (xs : List α)
    (h : xs.Pairwise (fun x y => key x ≤ key y)) :
    (insertByKey key a xs).Pairwise (fun x y => key x ≤ key y) := by
  induction xs with
  | nil => simp [insertByKey]
  | cons b bs ih =>
    rcases List.pairwise_cons.mp h with ⟨hb, hbs⟩
    by_cases hle : key b ≤ key a
    · rw [insertByKey, if_pos hle]
      refine List.pairwise_cons.mpr ⟨?_, ih hbs⟩
      intro x hx
      rcases List.mem_cons.mp ((insertByKey_perm key a bs).mem_iff.mp hx) with
        hxa | hxm
      · subst hxa; assumption
      · exact hb x hxm
    · rw [insertByKey, if_neg hle]
      refine List.pairwise_cons.mpr ⟨?_, h⟩
      intro x hx
      rcases List.mem_cons.mp hx with hxb | hxm
      · subst hxb; omega
      · exact le_trans (by omega) (hb x hxm)

theorem pairwise_sortByKey {α : Type} (key : α → ℕ) (xs : List α) :
    (sortByKey key xs).Pairwise (fun x y => key x ≤ key y) := by
  suffices h : ∀ acc, acc.Pairwise (fun x y => key x ≤ key y) →
      (xs.foldl (fun acc a => insertByKey key a acc) acc).Pairwise
        (fun x y => key x ≤ key y) by
    exact h [] (by simp)
  induction xs with
  | nil => intro acc hacc; simpa using hacc
  | cons x l ih =>
    intro acc hacc
    exact ih (insertByKey key x acc) (pairwise_insertByKey key x acc hacc)

theorem sum_map_perm {α : Type} {xs ys : List α} (f : α → ℚ)
    (h : List.Perm xs ys) : (xs.map f).sum = (ys.map f).sum :=
  (h.map f).sum_eq

/-- Total quantity of a batch list. -/
def sumQ (xs : List Batch) : ℚ := (xs.map (·.quantity)).sum

theorem sumQ_nonneg {xs : List Batch} (h : ∀ b ∈ xs, 0 ≤ b.quantity) :
    0 ≤ sumQ xs := by
  refine List.sum_nonneg ?_
  intro q hq
  rcases List.mem_map.mp hq with ⟨b, hb, rfl⟩
  exact h b hb

theorem sumQ_consumeFifo (r : ℚ) (xs : List Batch) (hr : 0 ≤ r)
    (hq : ∀ b ∈ xs, 0 ≤ b.quantity) :
    sumQ (consumeFifo r xs) = sumQ xs - min r (sumQ xs) := by
  induction xs generalizing r with
  | nil =>
    simp only [consumeFifo, sumQ, List.map_nil, List.sum_nil]
    rw [min_eq_right hr]; ring
  | cons b rest ih =>
    have hb : 0 ≤ b.quantity := hq b (by simp)
    have hrest : ∀ x ∈ rest, 0 ≤ x.quantity := fun x hx => hq x (by simp [hx])
    have hsum : 0 ≤ sumQ rest := sumQ_nonneg hrest
    unfold consumeFifo
    split
    · have hr0 : r = 0 := le_antisymm (by assumption) hr
      subst hr0
      rw [min_eq_left (by simp [sumQ]; positivity)]
      ring
    · rename_i hrp
      push_neg at hrp
      split
      · rename_i hble
        rw [ih (r - b.quantity) (by linarith) hrest]
        have hsums : sumQ (b :: rest) = b.quantity + sumQ rest := by
          simp [sumQ]
        rw [hsums]
        rcases le_total (r - b.quantity) (sumQ rest) with hc | hc
        · rw [min_eq_left hc, min_eq_left (by linarith)]; ring
        · rw [min_eq_right hc, min_eq_right (by linarith)]; ring
      · rename_i hbgt
        push_neg at hbgt
        have hsums : sumQ (b :: rest) = b.quantity + sumQ rest := by
          simp [sumQ]
        have : min r (sumQ (b :: rest)) = r := by
          rw [hsums]; exact min_eq_left (by linarith)
        rw [this, hsums]
        simp [sumQ]
        ring

theorem consumeFifo_product_id {pid : String} (r : ℚ) (xs : List Batch)
    (h : ∀ b ∈ xs, b.product_id = pid) :
    ∀ b ∈ consumeFifo r xs, b.product_id = pid := by
  induction xs generalizing r with
  | nil => simp [consumeFifo]
  | cons b rest ih =>
    unfold consumeFifo
    split
    · exact h
    · split
      · exact ih _ (fun x hx => h x (by simp [hx]))
      · intro x hx
        rcases List.mem_cons.mp hx with hxb | hxm
        · subst hxb
          simpa using h b (by simp)
        · exact h x (by simp [hxm])

theorem mem_get_fifo_items {inv : List Batch} {pid : String} :
    ∀ b ∈ get_fifo_items inv pid, b.product_id = pid := by
  intro b hb
  have := (sortByKey_perm expiryKey
    (inv.filter (fun b => b.product_id == pid))).mem_iff.mp hb
  have := List.mem_filter.mp this
  simpa using this.2

theorem sumQ_get_fifo_items (inv : List Batch) (pid : String) :
    sumQ (get_fifo_items inv pid) = calculate_total_stock inv pid := by
  unfold get_fifo_items calculate_total_stock
  exact sum_map_perm _ (sortByKey_perm _ _)

theorem calculate_total_stock_applyFifoDeduction (inv : List Batch)
    (pid : String) (amount : ℚ) (hr : 0 ≤ amount)
    (hq : ∀ b ∈ inv, 0 ≤ b.quantity) :
    calculate_total_stock (applyFifoDeduction inv pid amount) pid =
      calculate_total_stock inv pid -
        min amount (calculate_total_stock inv pid) := by
  have hfifo_mem : ∀ b ∈ get_fifo_items inv pid, 0 ≤ b.quantity := by
    intro b hb
    have := (sortByKey_perm expiryKey
      (inv.filter (fun b => b.product_id == pid))).mem_iff.mp hb
    exact hq b (List.mem_filter.mp this).1
  have hfilter_rest : (inv.filter (fun b => b.product_id != pid)).filter
      (fun b => b.product_id == pid) = [] := by
    rw [List.filter_filter]
    refine List.filter_eq_nil_iff.mpr ?_
    intro b _
    by_cases hid : b.product_id = pid <;> simp [hid]
  have hfilter_cons : (consumeFifo amount (get_fifo_items inv pid)).filter
      (fun b => b.product_id == pid) =
      consumeFifo amount (get_fifo_items inv pid) := by
    refine List.filter_eq_self.mpr ?_
    intro b hb
    have := consumeFifo_product_id amount _ (fun x hx => mem_get_fifo_items x hx) b hb
    simp [this]
  unfold applyFifoDeduction calculate_total_stock
  rw [List.filter_append, hfilter_rest, hfilter_cons, List.nil_append]
  have h1 := sumQ_consumeFifo amount (get_fifo_items inv pid) hr hfifo_mem
  have h2 := sumQ_get_fifo_items inv pid
  unfold calculate_total_stock at h2
  unfold sumQ at h1 h2
  rw [h1, h2]

theorem check_inventory (s : InvState) (pid : String) :
    (check_low_stock_alerts s pid).inventory = s.inventory := by
  unfold check_low_stock_alerts
  dsimp only
  repeat' split
  all_goals rfl

theorem check_adjustments (s : InvState) (pid : String) :
    (check_low_stock_alerts s pid).stock_adjustments = s.stock_adjustments := by
  unfold check_low_stock_alerts
  dsimp only
  repeat' split
  all_goals rfl

theorem check_products (s : InvState) (pid : String) :
    (check_low_stock_alerts s pid).products = s.products := by
  unfold check_low_stock_alerts
  dsimp only
  repeat' split
  all_goals rfl

/-- The alert document `check_low_stock_alerts` writes when it fires. -/
def newAlert (s : InvState) (pid : String) : Alert :=
  { id := s.next_id, product_id := pid, alert_threshold := 5.0,
    current_stock := calculate_total_stock s.inventory pid,
    is_acknowledged := false }

theorem check_of_not_mem {s : InvState} {pid : String}
    (hp : pid ∉ s.products) : check_low_stock_alerts s pid = s := by
  unfold check_low_stock_alerts
  simp [hp]

theorem check_of_stock_gt {s : InvState} {pid : String}
    (hc : 5 < calculate_total_stock s.inventory pid) :
    check_low_stock_alerts s pid = s := by
  have hn : ¬(calculate_total_stock s.inventory pid ≤ (5.0 : ℚ)) := by
    norm_num
    exact hc
  unfold check_low_stock_alerts
  dsimp only
  rw [if_neg hn]
  split <;> rfl

theorem check_of_hasUnacknowledged {s : InvState} {pid : String}
    (hu : hasUnacknowledged s pid = true) :
    check_low_stock_alerts s pid = s := by
  unfold check_low_stock_alerts
  dsimp only
  rw [if_pos hu]
  repeat' split
  all_goals rfl

theorem check_fires {s : InvState} {pid : String}
    (hp : pid ∈ s.products)
    (hc : calculate_total_stock s.inventory pid ≤ 5)
    (hu : hasUnacknowledged s pid = false) :
    check_low_stock_alerts s pid =
      { s with low_stock_alerts := s.low_stock_alerts ++ [newAlert s pid],
               next_id := s.next_id + 1 } := by
  unfold check_low_stock_alerts
  dsimp only
  rw [if_pos hp, if_pos (by norm_num; exact hc), if_neg (by simp [hu])]
  rfl

theorem check_idempotent (s : InvState) (pid : String) :
    check_low_stock_alerts (check_low_stock_alerts s pid) pid =
      check_low_stock_alerts s pid := by
  by_cases hp : pid ∈ s.products
  · by_cases hc : calculate_total_stock s.inventory pid ≤ (5 : ℚ)
    · by_cases hu : hasUnacknowledged s pid
      · rw [check_of_hasUnacknowledged hu, check_of_hasUnacknowledged hu]
      · rw [check_fires hp hc (by simpa using hu)]
        apply check_of_hasUnacknowledged
        simp [hasUnacknowledged, newAlert]
    · push_neg at hc
      rw [check_of_stock_gt hc]
      exact check_of_stock_gt hc
  · rw [check_of_not_mem hp]
    exact check_of_not_mem hp

/-- Sum of all recorded ledger deltas for a product. -/
def ledgerSum (s : InvState) (pid : String) : ℚ :=
  ((s.stock_adjustments.filter (fun a => a.product_id == pid)).map
    (·.quantity_change)).sum

theorem ledgerSum_create (s : InvState) (pid : String) (qc : ℚ)
    (ty : String) (reason ref : Option String) :
    ledgerSum (create_stock_adjustment s pid qc ty reason ref) pid =
      ledgerSum s pid + qc := by
  unfold ledgerSum create_stock_adjustment
  rw [List.filter_append]
  simp

theorem adjust_stock_adjustments (s : InvState) (adj : StockAdjustmentRequest) :
    (adjust_stock s adj).stock_adjustments =
      s.stock_adjustments ++
        [{ product_id := adj.product_id,
           adjustment_type := adj.adjustment_type,
           quantity_change := adj.quantity_change, reason := adj.reason,
           reference_id := adj.reference_id }] := by
  unfold adjust_stock adjust_stock_pre create_stock_adjustment
  dsimp only
  rw [check_adjustments]
  split <;> rfl

theorem adjust_stock_inventory (s : InvState) (adj : StockAdjustmentRequest) :
    (adjust_stock s adj).inventory =
      if adj.quantity_change < 0 then
        applyFifoDeduction s.inventory adj.product_id (-adj.quantity_change)
      else s.inventory := by
  unfold adjust_stock adjust_stock_pre create_stock_adjustment
  dsimp only
  rw [check_inventory]
  split <;> rfl

theorem adjust_stock_total (s : InvState) (adj : StockAdjustmentRequest)
    (hneg : adj.quantity_change < 0)
    (hq : ∀ b ∈ s.inventory, 0 ≤ b.quantity) :
    calculate_total_stock (adjust_stock s adj).inventory adj.product_id =
      calculate_total_stock s.inventory adj.product_id -
        min (-adj.quantity_change)
          (calculate_total_stock s.inventory adj.product_id) := by
  rw [adjust_stock_inventory, if_pos hneg]
  exact calculate_total_stock_applyFifoDeduction s.inventory adj.product_id
    (-adj.quantity_change) (by linarith) hq

theorem add_inventory_item_adjustments (s : InvState)
    (item : InventoryItemRequest) (today : ℕ) :
    (add_inventory_item s item today).stock_adjustments =
      s.stock_adjustments ++
        [{ product_id := item.product_id, adjustment_type := "received",
           quantity_change := item.quantity,
           reason := some "Inventory item added", reference_id := none }] := by
  unfold add_inventory_item create_stock_adjustment
  dsimp only
  rw [check_adjustments]

theorem add_inventory_item_total (s : InvState) (item : InventoryItemRequest)
    (today : ℕ) :
    calculate_total_stock (add_inventory_item s item today).inventory
        item.product_id =
      calculate_total_stock s.inventory item.product_id + item.quantity := by
  unfold add_inventory_item create_stock_adjustment
  dsimp only
  rw [check_inventory]
  unfold calculate_total_stock
  rw [List.filter_append]
  simp

theorem stocktakeEntry_adjustments (s : InvState) (pid : String)
    (actual : ℚ) :
    (stocktakeEntry s pid actual).stock_adjustments =
      if actual - calculate_total_stock s.inventory pid ≠ 0 then
        s.stock_adjustments ++
          [{ product_id := pid, adjustment_type := "stocktake",
             quantity_change := actual - calculate_total_stock s.inventory pid,
             reason := some "Stocktake adjustment", reference_id := none }]
      else s.stock_adjustments := by
  unfold stocktakeEntry create_stock_adjustment
  dsimp only
  repeat' split
  all_goals rfl

theorem stocktakeEntry_inventory (s : InvState) (pid : String) (actual : ℚ) :
    (stocktakeEntry s pid actual).inventory =
      if actual - calculate_total_stock s.inventory pid < 0 then
        applyFifoDeduction s.inventory pid
          (-(actual - calculate_total_stock s.inventory pid))
      else s.inventory := by
  unfold stocktakeEntry create_stock_adjustment
  dsimp only
  by_cases h1 : actual - calculate_total_stock s.inventory pid ≠ 0
  · rw [if_pos h1]
    by_cases h2 : actual - calculate_total_stock s.inventory pid < 0
    · rw [if_pos h2, if_pos h2]
    · rw [if_neg h2, if_neg h2]
  · push_neg at h1
    rw [if_neg (by simp [h1]), if_neg (by simp [h1])]

theorem stocktakeEntry_total (s : InvState) (pid : String) (actual : ℚ)
    (h0 : 0 ≤ actual)
    (hle : actual ≤ calculate_total_stock s.inventory pid)
    (hq : ∀ b ∈ s.inventory, 0 ≤ b.quantity) :
    calculate_total_stock (stocktakeEntry s pid actual).inventory pid =
      actual := by
  rw [stocktakeEntry_inventory]
  by_cases hlt : actual - calculate_total_stock s.inventory pid < 0
  · rw [if_pos hlt]
    rw [calculate_total_stock_applyFifoDeduction s.inventory pid _
      (by linarith) hq]
    rw [min_eq_left (by linarith)]
    ring
  · rw [if_neg hlt]
    push_neg at hlt
    linarith

/-- Number of unacknowledged alerts stored for a product. -/
def unackedCount (s : InvState) (pid : String) : ℕ :=
  (s.low_stock_alerts.filter
    (fun a => a.product_id == pid && !a.is_acknowledged)).length

theorem unackedCount_eq_zero_iff (s : InvState) (pid : String) :
    unackedCount s pid = 0 ↔ hasUnacknowledged s pid = false := by
  unfold unackedCount hasUnacknowledged
  rw [List.length_eq_zero, List.filter_eq_nil_iff, List.any_eq_false]

theorem unackedCount_check (s : InvState) (pid : String) :
    unackedCount (check_low_stock_alerts s pid) pid =
      if pid ∈ s.products ∧ calculate_total_stock s.inventory pid ≤ 5 ∧
          unackedCount s pid = 0
      then 1 else unackedCount s pid := by
  by_cases hp : pid ∈ s.products
  · by_cases hc : calculate_total_stock s.inventory pid ≤ (5 : ℚ)
    · by_cases hu : unackedCount s pid = 0
      · rw [check_fires hp hc ((unackedCount_eq_zero_iff s pid).mp hu),
          if_pos ⟨hp, hc, hu⟩]
        unfold unackedCount at hu ⊢
        dsimp only
        rw [List.filter_append, List.length_append, hu]
        simp [newAlert]
      · have hut : hasUnacknowledged s pid = true := by
          rcases Bool.eq_false_or_eq_true (hasUnacknowledged s pid) with h | h
          · exact h
          · exact absurd ((unackedCount_eq_zero_iff s pid).mpr h) hu
        rw [check_of_hasUnacknowledged hut,
          if_neg (by rintro ⟨-, -, h⟩; exact hu h)]
    · push_neg at hc
      rw [check_of_stock_gt hc, if_neg (by rintro ⟨-, h, -⟩; linarith)]
  · rw [check_of_not_mem hp, if_neg (by rintro ⟨h, -, -⟩; exact hp h)]

theorem adjust_stock_pre_products (s : InvState)
    (adj : StockAdjustmentRequest) :
    (adjust_stock_pre s adj).products = s.products := by
  unfold adjust_stock_pre create_stock_adjustment
  dsimp only
  split <;> rfl

theorem adjust_stock_pre_alerts (s : InvState)
    (adj : StockAdjustmentRequest) :
    (adjust_stock_pre s adj).low_stock_alerts = s.low_stock_alerts := by
  unfold adjust_stock_pre create_stock_adjustment
  dsimp only
  split <;> rfl

theorem unackedCount_congr {s t : InvState} (pid : String)
    (h : t.low_stock_alerts = s.low_stock_alerts) :
    unackedCount t pid = unackedCount s pid := by
  unfold unackedCount
  rw [h]

theorem unackedCount_adjust (s : InvState) (adj : StockAdjustmentRequest) :
    unackedCount (adjust_stock s adj) adj.product_id =
      if adj.product_id ∈ s.products ∧
          calculate_total_stock (adjust_stock s adj).inventory
            adj.product_id ≤ 5 ∧
          unackedCount s adj.product_id = 0
      then 1 else unackedCount s adj.product_id := by
  unfold adjust_stock
  rw [unackedCount_check, adjust_stock_pre_products,
    unackedCount_congr adj.product_id (adjust_stock_pre_alerts s adj),
    check_inventory]

theorem adjust_stock_products (s : InvState) (adj : StockAdjustmentRequest) :
    (adjust_stock s adj).products = s.products := by
  unfold adjust_stock
  rw [check_products, adjust_stock_pre_products]

theorem stocktakeEntry_of_eq {s : InvState} {pid : String} {actual : ℚ}
    (h : actual = calculate_total_stock s.inventory pid) :
    stocktakeEntry s pid actual = s := by
  unfold stocktakeEntry
  dsimp only
  rw [if_neg (by simp [h])]

theorem create_stocktake_singleton (s : InvState) (pid : String)
    (actual : ℚ) :
    create_stocktake s [(pid, actual)] =
      check_low_stock_alerts (stocktakeEntry s pid actual) pid := rfl

/-! ## Claims -/

/-- The batch order the specification describes: expiry date ascending with
missing expiries last, received date ascending as the tie-break. -/
def specFifoLe (a b : Batch) : Bool :=
  expiryKey a < expiryKey b ||
    (expiryKey a == expiryKey b &&
      a.received_date.getD 0 ≤ b.received_date.getD 0)

/-- Stable insertion under `specFifoLe`. -/
def specFifoInsert (a : Batch) : List Batch → List Batch
  | [] => [a]
  | b :: bs => if specFifoLe b a then b :: specFifoInsert a bs
               else a :: b :: bs

/-- The candidate sequence the specification describes for FIFO consumption,
for comparison with `get_fifo_items`. -/
def specFifoOrder (inventory : List Batch) (pid : String) : List Batch :=
  (inventory.filter (fun b => b.product_id == pid)).foldl
    (fun acc a => specFifoInsert a acc) []

/-- Claim C2, counterexample to the received-date tie-break: two batches of
product `"p"` share the expiry `2024-01-10` but were received on
`2024-01-02` (stored first) and `2024-01-01`.  The sort key of
`get_fifo_items` is the expiry alone, and Python's stable sort keeps store
order, so the code walks the *later-received* batch first, while the
specified order walks the earlier-received one first. -/
theorem claim_C2_counterexample :
    get_fifo_items
        [⟨1, "p", 5, some 20240110, some 20240102⟩,
         ⟨2, "p", 5, some 20240110, some 20240101⟩] "p" =
      [⟨1, "p", 5, some 20240110, some 20240102⟩,
       ⟨2, "p", 5, some 20240110, some 20240101⟩] ∧
    specFifoOrder
        [⟨1, "p", 5, some 20240110, some 20240102⟩,
         ⟨2, "p", 5, some 20240110, some 20240101⟩] "p" =
      [⟨2, "p", 5, some 20240110, some 20240101⟩,
       ⟨1, "p", 5, some 20240110, some 20240102⟩] ∧
    get_fifo_items
        [⟨1, "p", 5, some 20240110, some 20240102⟩,
         ⟨2, "p", 5, some 20240110, some 20240101⟩] "p" ≠
      specFifoOrder
        [⟨1, "p", 5, some 20240110, some 20240102⟩,
         ⟨2, "p", 5, some 20240110, some 20240101⟩] "p" := by
  refine ⟨by with_unfolding_all rfl, by with_unfolding_all rfl, ?_⟩
  intro h
  have h1 : (get_fifo_items
      [⟨1, "p", 5, some 20240110, some 20240102⟩,
       ⟨2, "p", 5, some 20240110, some 20240101⟩] "p").map (·.id) = [1, 2] := by
    with_unfolding_all rfl
  have h2 : (specFifoOrder
      [⟨1, "p", 5, some 20240110, some 20240102⟩,
       ⟨2, "p", 5, some 20240110, some 20240101⟩] "p").map (·.id) = [2, 1] := by
    with_unfolding_all rfl
  rw [h] at h1
  rw [h1] at h2
  exact absurd h2 (by decide)

/-- Claim C2 (amended): `get_fifo_items` returns the product's batches
sorted by expiry date ascending with missing expiries last (`date.max`
key), equal keys kept in store order — there is no received-date
tie-break; the deduction walk consumes `min(remaining, quantity)` from each
batch in that order, deleting emptied batches and decrementing the last
partially used one, so it removes exactly `min(requested, available)` in
total; on the spec's concrete example (expiries
`[2024-01-05, 2024-01-10, none]`, quantities `[3, 5, 10]`, consuming 6) the
first batch is removed, the second is left at 2 and the third at 10. -/
theorem claim_C2_fifo_consumption :
    (∀ (inv : List Batch) (pid : String),
      (get_fifo_items inv pid).Pairwise
        (fun a b => expiryKey a ≤ expiryKey b)) ∧
    (∀ (inv : List Batch) (pid : String),
      (get_fifo_items inv pid).Perm
        (inv.filter (fun b => b.product_id == pid))) ∧
    (∀ (r : ℚ) (xs : List Batch), 0 ≤ r → (∀ b ∈ xs, 0 ≤ b.quantity) →
      sumQ (consumeFifo r xs) = sumQ xs - min r (sumQ xs)) ∧
    (adjust_stock
        ⟨["p"],
         [⟨1, "p", 3, some 20240105, some 20240101⟩,
          ⟨2, "p", 5, some 20240110, some 20240102⟩,
          ⟨3, "p", 10, none, some 20240103⟩], [], [], 10⟩
        ⟨"p", "manual", -6, none, none⟩).inventory =
      [⟨2, "p", 2, some 20240110, some 20240102⟩,
       ⟨3, "p", 10, none, some 20240103⟩] := by
  refine ⟨fun inv pid => pairwise_sortByKey expiryKey _,
    fun inv pid => sortByKey_perm expiryKey _,
    fun r xs hr hq => sumQ_consumeFifo r xs hr hq,
    by with_unfolding_all rfl⟩

/-- Claim C2 witness: the amended theorem applied at a concrete input. -/
theorem claim_C2_witness :
    sumQ (consumeFifo 6 [⟨1, "p", 3, some 20240105, some 20240101⟩,
      ⟨2, "p", 5, some 20240110, some 20240102⟩]) = 8 - min 6 8 := by
  have h := claim_C2_fifo_consumption.2.2.1 6
    [⟨1, "p", 3, some 20240105, some 20240101⟩,
     ⟨2, "p", 5, some 20240110, some 20240102⟩]
    (by norm_num)
    (by
      intro b hb
      rcases List.mem_cons.mp hb with rfl | hb
      · norm_num
      · rcases List.mem_singleton.mp hb with rfl
        norm_num)
  rw [h]
  norm_num [sumQ]

/-- Claim C1, counterexample: a positive manual adjustment records the
ledger delta but creates no batch, so replaying the ledger (sum `5`) does
not reproduce the total stock (`0`). -/
theorem claim_C1_counterexample :
    ledgerSum (adjust_stock ⟨["p"], [], [], [], 0⟩
        ⟨"p", "manual", 5, none, none⟩) "p" = 5 ∧
    calculate_total_stock (adjust_stock ⟨["p"], [], [], [], 0⟩
        ⟨"p", "manual", 5, none, none⟩).inventory "p" = 0 ∧
    (5 : ℚ) ≠ 0 := by
  refine ⟨?_, ?_, by norm_num⟩
  · have h : (adjust_stock ⟨["p"], [], [], [], 0⟩
        ⟨"p", "manual", 5, none, none⟩).stock_adjustments =
        [⟨"p", "manual", 5, none, none⟩] := by
      with_unfolding_all rfl
    unfold ledgerSum
    rw [h]
    norm_num
  · have h : (adjust_stock ⟨["p"], [], [], [], 0⟩
        ⟨"p", "manual", 5, none, none⟩).inventory = [] := by
      with_unfolding_all rfl
    rw [h]
    norm_num [calculate_total_stock]

/-- Claim C1 (amended): ledger replay matches the batch change only on the
paths that mutate batches by the recorded amount — an inventory addition
through the add-inventory endpoint (delta `+quantity`, one new batch), a
FIFO deduction whose magnitude does not exceed available stock, and a
stocktake whose physical count is between 0 and current stock.  A positive
`adjust_stock` or stocktake delta creates no batch, and a deduction beyond
available stock records the full requested delta while batches lose only
what existed, so on those paths the ledger and the batches diverge. -/
theorem claim_C1_ledger_replay :
    (∀ (s : InvState) (item : InventoryItemRequest) (today : ℕ),
      ledgerSum (add_inventory_item s item today) item.product_id =
        ledgerSum s item.product_id + item.quantity ∧
      calculate_total_stock (add_inventory_item s item today).inventory
          item.product_id =
        calculate_total_stock s.inventory item.product_id + item.quantity) ∧
    (∀ (s : InvState) (adj : StockAdjustmentRequest),
      adj.quantity_change < 0 →
      -adj.quantity_change ≤
        calculate_total_stock s.inventory adj.product_id →
      (∀ b ∈ s.inventory, 0 ≤ b.quantity) →
      ledgerSum (adjust_stock s adj) adj.product_id =
        ledgerSum s adj.product_id + adj.quantity_change ∧
      calculate_total_stock (adjust_stock s adj).inventory adj.product_id =
        calculate_total_stock s.inventory adj.product_id +
          adj.quantity_change) ∧
    (∀ (s : InvState) (pid : String) (actual : ℚ),
      0 ≤ actual →
      actual ≤ calculate_total_stock s.inventory pid →
      (∀ b ∈ s.inventory, 0 ≤ b.quantity) →
      ledgerSum (create_stocktake s [(pid, actual)]) pid =
        ledgerSum s pid +
          (actual - calculate_total_stock s.inventory pid) ∧
      calculate_total_stock
          (create_stocktake s [(pid, actual)]).inventory pid = actual) := by
  refine ⟨?_, ?_, ?_⟩
  · intro s item today
    constructor
    · unfold ledgerSum
      rw [add_inventory_item_adjustments, List.filter_append]
      simp
    · exact add_inventory_item_total s item today
  · intro s adj hneg hle hq
    constructor
    · unfold ledgerSum
      rw [adjust_stock_adjustments, List.filter_append]
      simp
    · rw [adjust_stock_total s adj hneg hq, min_eq_left hle]
      ring
  · intro s pid actual h0 hle hq
    constructor
    · rw [create_stocktake_singleton]
      unfold ledgerSum
      rw [check_adjustments, stocktakeEntry_adjustments]
      by_cases hd : actual - calculate_total_stock s.inventory pid ≠ 0
      · rw [if_pos hd, List.filter_append]
        simp [ledgerSum]
      · push_neg at hd
        rw [if_neg (by simp [hd]), hd]
        ring
    · rw [create_stocktake_singleton, check_inventory]
      exact stocktakeEntry_total s pid actual h0 hle hq

/-- Claim C1 witness: the amended theorem applied at a concrete input. -/
theorem claim_C1_witness :
    ledgerSum (adjust_stock ⟨["p"], [⟨1, "p", 10, none, none⟩], [], [], 2⟩
        ⟨"p", "sale", -4, none, none⟩) "p" =
      ledgerSum ⟨["p"], [⟨1, "p", 10, none, none⟩], [], [], 2⟩ "p" + -4 ∧
    calculate_total_stock
        (adjust_stock ⟨["p"], [⟨1, "p", 10, none, none⟩], [], [], 2⟩
          ⟨"p", "sale", -4, none, none⟩).inventory "p" =
      calculate_total_stock [⟨1, "p", 10, none, none⟩] "p" + -4 :=
  claim_C1_ledger_replay.2.1 ⟨["p"], [⟨1, "p", 10, none, none⟩], [], [], 2⟩
    ⟨"p", "sale", -4, none, none⟩ (by norm_num)
    (by norm_num [calculate_total_stock])
    (by
      intro b hb
      rcases List.mem_singleton.mp hb with rfl
      norm_num)

/-- Claim C4, counterexample: deducting 100 from a stock of 10 writes one
adjustment whose delta is the full `-100` requested, while the batches only
lose 10 (stock goes from 10 to 0): the recorded delta is not minus the
quantity actually consumed. -/
theorem claim_C4_counterexample :
    (adjust_stock ⟨["p"], [⟨1, "p", 10, none, none⟩], [], [], 2⟩
        ⟨"p", "manual", -100, none, none⟩).stock_adjustments =
      [⟨"p", "manual", -100, none, none⟩] ∧
    calculate_total_stock
        (adjust_stock ⟨["p"], [⟨1, "p", 10, none, none⟩], [], [], 2⟩
          ⟨"p", "manual", -100, none, none⟩).inventory "p" = 0 ∧
    (-100 : ℚ) ≠ -(10 - 0) := by
  refine ⟨by with_unfolding_all rfl, ?_, by norm_num⟩
  have h : (adjust_stock ⟨["p"], [⟨1, "p", 10, none, none⟩], [], [], 2⟩
      ⟨"p", "manual", -100, none, none⟩).inventory = [] := by
    with_unfolding_all rfl
  rw [h]
  norm_num [calculate_total_stock]

/-- Claim C4 (amended): every successful mutation writes exactly one
Adjustment per changed product — `adjust_stock` and the add-inventory
endpoint always append exactly one record, a stocktake entry appends one
exactly when the count differs from computed stock — but the recorded delta
is the *requested* signed change, written before the FIFO walk; the
quantity actually removed from the batches is `min(requested, available)`,
so when the request exceeds available stock the recorded delta overstates
the actual consumption. -/
theorem claim_C4_one_adjustment_requested_delta :
    (∀ (s : InvState) (adj : StockAdjustmentRequest),
      (adjust_stock s adj).stock_adjustments =
        s.stock_adjustments ++
          [{ product_id := adj.product_id,
             adjustment_type := adj.adjustment_type,
             quantity_change := adj.quantity_change, reason := adj.reason,
             reference_id := adj.reference_id }]) ∧
    (∀ (s : InvState) (item : InventoryItemRequest) (today : ℕ),
      (add_inventory_item s item today).stock_adjustments =
        s.stock_adjustments ++
          [{ product_id := item.product_id, adjustment_type := "received",
             quantity_change := item.quantity,
             reason := some "Inventory item added",
             reference_id := none }]) ∧
    (∀ (s : InvState) (pid : String) (actual : ℚ),
      (stocktakeEntry s pid actual).stock_adjustments =
        if actual - calculate_total_stock s.inventory pid ≠ 0 then
          s.stock_adjustments ++
            [{ product_id := pid, adjustment_type := "stocktake",
               quantity_change :=
                 actual - calculate_total_stock s.inventory pid,
               reason := some "Stocktake adjustment",
               reference_id := none }]
        else s.stock_adjustments) ∧
    (∀ (s : InvState) (adj : StockAdjustmentRequest),
      adj.quantity_change < 0 → (∀ b ∈ s.inventory, 0 ≤ b.quantity) →
      calculate_total_stock s.inventory adj.product_id -
          calculate_total_stock (adjust_stock s adj).inventory
            adj.product_id =
        min (-adj.quantity_change)
          (calculate_total_stock s.inventory adj.product_id)) := by
  refine ⟨adjust_stock_adjustments, add_inventory_item_adjustments,
    stocktakeEntry_adjustments, ?_⟩
  intro s adj hneg hq
  rw [adjust_stock_total s adj hneg hq]
  ring

/-- Claim C4 witness: the amended theorem applied at a concrete input. -/
theorem claim_C4_witness :
    calculate_total_stock [⟨1, "p", 10, none, none⟩] "p" -
        calculate_total_stock
          (adjust_stock ⟨["p"], [⟨1, "p", 10, none, none⟩], [], [], 2⟩
            ⟨"p", "manual", -100, none, none⟩).inventory "p" =
      min (-(-100 : ℚ)) (calculate_total_stock [⟨1, "p", 10, none, none⟩] "p") :=
  claim_C4_one_adjustment_requested_delta.2.2.2
    ⟨["p"], [⟨1, "p", 10, none, none⟩], [], [], 2⟩
    ⟨"p", "manual", -100, none, none⟩ (by norm_num)
    (by
      intro b hb
      rcases List.mem_singleton.mp hb with rfl
      norm_num)

/-- Claim C5, counterexample: a stocktake that finds *more* stock than
computed (physical count 5, computed 0) records a `stocktake` adjustment
but adds no batch, so stock stays at 0 instead of 5 — and because nothing
changed, an identical second stocktake records a second adjustment instead
of being a no-op. -/
theorem claim_C5_counterexample :
    calculate_total_stock
        (create_stocktake ⟨["p"], [], [], [], 0⟩ [("p", 5)]).inventory "p" =
      0 ∧
    (create_stocktake ⟨["p"], [], [], [], 0⟩
        [("p", 5)]).stock_adjustments.length = 1 ∧
    (create_stocktake (create_stocktake ⟨["p"], [], [], [], 0⟩ [("p", 5)])
        [("p", 5)]).stock_adjustments.length = 2 ∧
    (0 : ℚ) ≠ 5 := by
  refine ⟨?_, by with_unfolding_all rfl, by with_unfolding_all rfl,
    by norm_num⟩
  have h : (create_stocktake ⟨["p"], [], [], [], 0⟩ [("p", 5)]).inventory =
      [] := by
    with_unfolding_all rfl
  rw [h]
  norm_num [calculate_total_stock]

/-- Claim C5 (amended): the stocktake computes
`difference = physicalCount − TotalStock`; a non-zero difference records
one `stocktake` Adjustment of that delta, but batches are mutated only when
the difference is negative (non-critical FIFO deduction); no synthetic
batch is ever added for a surplus, so after a stocktake with
`0 ≤ physicalCount ≤ TotalStock` the stock equals the physical count and a
second identical call is a complete no-op, while a surplus stocktake leaves
stock below the count and repeats its ledger write on every call. -/
theorem claim_C5_stocktake_reconcile :
    ∀ (s : InvState) (pid : String) (actual : ℚ),
      0 ≤ actual →
      actual ≤ calculate_total_stock s.inventory pid →
      (∀ b ∈ s.inventory, 0 ≤ b.quantity) →
      calculate_total_stock
          (create_stocktake s [(pid, actual)]).inventory pid = actual ∧
      create_stocktake (create_stocktake s [(pid, actual)]) [(pid, actual)] =
        create_stocktake s [(pid, actual)] := by
  intro s pid actual h0 hle hq
  have htot : calculate_total_stock
      (create_stocktake s [(pid, actual)]).inventory pid = actual := by
    rw [create_stocktake_singleton, check_inventory]
    exact stocktakeEntry_total s pid actual h0 hle hq
  refine ⟨htot, ?_⟩
  have hsecond : stocktakeEntry (create_stocktake s [(pid, actual)]) pid
      actual = create_stocktake s [(pid, actual)] :=
    stocktakeEntry_of_eq htot.symm
  calc create_stocktake (create_stocktake s [(pid, actual)]) [(pid, actual)]
      = check_low_stock_alerts
          (stocktakeEntry (create_stocktake s [(pid, actual)]) pid actual)
          pid := create_stocktake_singleton _ _ _
    _ = check_low_stock_alerts (create_stocktake s [(pid, actual)]) pid := by
        rw [hsecond]
    _ = check_low_stock_alerts
          (check_low_stock_alerts (stocktakeEntry s pid actual) pid) pid := by
        rw [create_stocktake_singleton]
    _ = check_low_stock_alerts (stocktakeEntry s pid actual) pid :=
        check_idempotent _ pid
    _ = create_stocktake s [(pid, actual)] :=
        (create_stocktake_singleton s pid actual).symm

/-- Claim C5 witness: the amended theorem applied at a concrete input. -/
theorem claim_C5_witness :
    calculate_total_stock
        (create_stocktake ⟨["p"], [⟨1, "p", 9, none, none⟩], [], [], 2⟩
          [("p", 3)]).inventory "p" = 3 ∧
    create_stocktake
        (create_stocktake ⟨["p"], [⟨1, "p", 9, none, none⟩], [], [], 2⟩
          [("p", 3)]) [("p", 3)] =
      create_stocktake ⟨["p"], [⟨1, "p", 9, none, none⟩], [], [], 2⟩
        [("p", 3)] :=
  claim_C5_stocktake_reconcile ⟨["p"], [⟨1, "p", 9, none, none⟩], [], [], 2⟩
    "p" 3 (by norm_num) (by norm_num [calculate_total_stock])
    (by
      intro b hb
      rcases List.mem_singleton.mp hb with rfl
      norm_num)

/-- Claim C7: the low-stock check creates an alert exactly when the product
document exists, stock is at or below the threshold (the constant 5.0),
and no unacknowledged alert for the product exists; it therefore preserves
"at most one unacknowledged alert per product"; it never touches the alert
list when stock is above the threshold (no auto-resolve); and two
consecutive stock-decreasing adjustments that both end at or below the
threshold leave exactly one unacknowledged alert. -/
theorem claim_C7_alert_dedup :
    (∀ (s : InvState) (pid : String),
      unackedCount (check_low_stock_alerts s pid) pid =
        if pid ∈ s.products ∧ calculate_total_stock s.inventory pid ≤ 5 ∧
            unackedCount s pid = 0
        then 1 else unackedCount s pid) ∧
    (∀ (s : InvState) (pid : String),
      unackedCount s pid ≤ 1 →
      unackedCount (check_low_stock_alerts s pid) pid ≤ 1) ∧
    (∀ (s : InvState) (pid : String),
      5 < calculate_total_stock s.inventory pid →
      (check_low_stock_alerts s pid).low_stock_alerts =
        s.low_stock_alerts) ∧
    (∀ (s : InvState) (a1 a2 : StockAdjustmentRequest) (pid : String),
      a1.product_id = pid → a2.product_id = pid →
      a1.quantity_change < 0 → a2.quantity_change < 0 →
      pid ∈ s.products → unackedCount s pid = 0 →
      calculate_total_stock (adjust_stock s a1).inventory pid ≤ 5 →
      calculate_total_stock
        (adjust_stock (adjust_stock s a1) a2).inventory pid ≤ 5 →
      unackedCount (adjust_stock (adjust_stock s a1) a2) pid = 1) := by
  refine ⟨unackedCount_check, ?_, ?_, ?_⟩
  · intro s pid h
    rw [unackedCount_check]
    split
    · exact le_refl 1
    · exact h
  · intro s pid h
    rw [check_of_stock_gt h]
  · intro s a1 a2 pid h1 h2 hq1 hq2 hp hu hs1 hs2
    subst h1
    have hcount1 : unackedCount (adjust_stock s a1) a1.product_id = 1 := by
      rw [unackedCount_adjust, if_pos ⟨hp, hs1, hu⟩]
    rw [← h2] at hcount1 ⊢
    rw [unackedCount_adjust,
      if_neg (by rintro ⟨-, -, h⟩; rw [hcount1] at h; exact one_ne_zero h),
      hcount1]

/-- Claim C7 witness: the dedup scenario of the theorem at a concrete
input — stock 10, two deductions of 6 and 1, both ending at or below the
threshold 5, leave exactly one unacknowledged alert. -/
theorem claim_C7_witness :
    unackedCount
      (adjust_stock
        (adjust_stock ⟨["p"], [⟨1, "p", 10, none, none⟩], [], [], 2⟩
          ⟨"p", "sale", -6, none, none⟩)
        ⟨"p", "sale", -1, none, none⟩) "p" = 1 :=
  claim_C7_alert_dedup.2.2.2 ⟨["p"], [⟨1, "p", 10, none, none⟩], [], [], 2⟩
    ⟨"p", "sale", -6, none, none⟩ ⟨"p", "sale", -1, none, none⟩ "p"
    rfl rfl (by norm_num) (by norm_num) (by simp)
    (by with_unfolding_all rfl)
    (by
      have h : calculate_total_stock
          (adjust_stock ⟨["p"], [⟨1, "p", 10, none, none⟩], [], [], 2⟩
            ⟨"p", "sale", -6, none, none⟩).inventory "p" = 4 := by
        with_unfolding_all rfl
      rw [h]
      norm_num)
    (by
      have h : calculate_total_stock
          (adjust_stock
            (adjust_stock ⟨["p"], [⟨1, "p", 10, none, none⟩], [], [], 2⟩
              ⟨"p", "sale", -6, none, none⟩)
            ⟨"p", "sale", -1, none, none⟩).inventory "p" = 3 := by
        with_unfolding_all rfl
      rw [h]
      norm_num)

/-- Claim C9, counterexample: acknowledging an alert that is *already
acknowledged* succeeds (the handler updates the flag unconditionally); the
claim demands a NotFound failure. -/
theorem claim_C9_counterexample :
    acknowledge_low_stock_alert
        ⟨["p"], [], [], [⟨0, "p", 5, 1, true⟩], 1⟩ 0 =
      (⟨["p"], [], [], [⟨0, "p", 5, 1, true⟩], 1⟩, .success) := by
  with_unfolding_all rfl

/-- Claim C9 (amended): acknowledging sets the acknowledged flag whenever
the alert document exists — including documents that are already
acknowledged, which succeed again rather than failing — and a missing
document makes the handler answer a generic HTTP 500 ("Failed to
acknowledge alert"), not a NotFound response. -/
theorem claim_C9_acknowledge :
    ∀ (s : InvState) (alert_id : ℕ),
      ((∃ a ∈ s.low_stock_alerts, a.id = alert_id) →
        (acknowledge_low_stock_alert s alert_id).2 = .success ∧
        ∀ a ∈ (acknowledge_low_stock_alert s alert_id).1.low_stock_alerts,
          a.id = alert_id → a.is_acknowledged = true) ∧
      ((∀ a ∈ s.low_stock_alerts, a.id ≠ alert_id) →
        acknowledge_low_stock_alert s alert_id = (s, .httpError 500)) := by
  intro s alert_id
  constructor
  · rintro ⟨a0, ha0, hid⟩
    have hany : s.low_stock_alerts.any (fun a => a.id == alert_id) = true :=
      List.any_eq_true.mpr ⟨a0, ha0, by simp [hid]⟩
    unfold acknowledge_low_stock_alert
    rw [if_pos hany]
    refine ⟨rfl, ?_⟩
    intro a ha hida
    dsimp only at ha
    rcases List.mem_map.mp ha with ⟨b, hb, hba⟩
    by_cases hbid : b.id = alert_id
    · rw [if_pos (by simp [hbid])] at hba
      rw [← hba]
    · rw [if_neg (by simp [hbid])] at hba
      subst hba
      exact absurd hida hbid
  · intro hnone
    have hany : s.low_stock_alerts.any (fun a => a.id == alert_id) = false := by
      rw [List.any_eq_false]
      intro a ha
      simp [hnone a ha]
    unfold acknowledge_low_stock_alert
    rw [if_neg (by simp [hany])]

/-- Claim C9 witness: the amended theorem applied at a concrete input. -/
theorem claim_C9_witness :
    (acknowledge_low_stock_alert
        ⟨["p"], [], [], [⟨0, "p", 5, 1, false⟩], 1⟩ 0).2 = .success ∧
    ∀ a ∈ (acknowledge_low_stock_alert
        ⟨["p"], [], [], [⟨0, "p", 5, 1, false⟩], 1⟩ 0).1.low_stock_alerts,
      a.id = 0 → a.is_acknowledged = true :=
  (claim_C9_acknowledge ⟨["p"], [], [], [⟨0, "p", 5, 1, false⟩], 1⟩ 0).1
    ⟨⟨0, "p", 5, 1, false⟩, by simp, rfl⟩

/-- Claim C3, counterexample: a *non-critical* ingredient with stock 10 and
a need of 100 lets the sale succeed, but the deduction is skipped entirely:
stock stays at 10 (not 0) and no stock transaction — hence no recorded
shortfall — is written. -/
theorem claim_C3_counterexample :
    record_dish_sale [⟨"i1", "Lettuce", 10, 1⟩] [⟨"i1", 100, some false⟩]
        1 =
      .ok ⟨[⟨"i1", "Lettuce", 10, 1⟩], [], 100⟩ ∧
    (10 : ℚ) ≠ 0 :=
  ⟨by with_unfolding_all rfl, by norm_num⟩

/-- Claim C3 (amended): when the requested quantity exceeds an ingredient's
stock, a critical ingredient (`is_critical` true or missing) fails the
whole sale with the insufficient-stock error and nothing is deducted; a
*non-critical* ingredient lets the sale succeed but is skipped — its stock
is left unchanged (not deducted to 0) and no stock transaction recording a
shortfall is written; only its cost still accrues to the sale's ingredient
cost. -/
theorem claim_C3_critical_policy :
    ∀ (ing : Ingredient) (di : DishIngredient) (qty : ℚ),
      di.ingredient_id = ing.id →
      (di.is_critical.getD true = true →
        ing.current_stock < di.quantity_needed * qty →
        record_dish_sale [ing] [di] qty =
          .error (.insufficientStock ing.name)) ∧
      (di.is_critical.getD true = false →
        ing.current_stock < di.quantity_needed * qty →
        record_dish_sale [ing] [di] qty =
          .ok ⟨[ing], [], di.quantity_needed * qty * ing.cost_per_unit⟩) := by
  intro ing di qty hid
  have hfind : [ing].find? (fun i => i.id == di.ingredient_id) = some ing := by
    simp [hid]
  constructor
  · intro hcrit hstock
    unfold record_dish_sale planDeductions
    simp [List.foldlM, hfind, hcrit, hstock]
  · intro hcrit hstock
    unfold record_dish_sale planDeductions
    simp [List.foldlM, hfind, hcrit, not_le.mpr hstock,
      not_lt.mpr (le_of_lt hstock)]

/-- Claim C3 witness: the amended theorem applied at concrete inputs for
both the critical and the non-critical branch. -/
theorem claim_C3_witness :
    record_dish_sale [⟨"i1", "Lettuce", 10, 1⟩] [⟨"i1", 100, some true⟩]
        1 =
      .error (.insufficientStock "Lettuce") ∧
    record_dish_sale [⟨"i1", "Lettuce", 10, 1⟩] [⟨"i1", 100, some false⟩]
        1 =
      .ok ⟨[⟨"i1", "Lettuce", 10, 1⟩], [], 100 * 1 * 1⟩ :=
  ⟨(claim_C3_critical_policy ⟨"i1", "Lettuce", 10, 1⟩ ⟨"i1", 100, some true⟩
      1 rfl).1 rfl (by norm_num),
   (claim_C3_critical_policy ⟨"i1", "Lettuce", 10, 1⟩ ⟨"i1", 100, some false⟩
      1 rfl).2 rfl (by norm_num)⟩

/-- The per-group cost invariant of `generate_supplier_orders`. -/
def groupCostOk (g : SupplierGroup) : Prop :=
  g.total_cost = (g.order_items.map (·.total_cost)).sum

theorem addToGroups_ok (groups : List (String × SupplierGroup))
    (r : OrderLine) (hr : 1 ≤ r.packs_needed)
    (h : ∀ p ∈ groups, groupCostOk p.2) :
    ∃ groups2, addToGroups groups r = .ok groups2 ∧
      ∀ p ∈ groups2, groupCostOk p.2 := by
  have hne : ((r.packs_needed : ℚ)) ≠ 0 := by
    have : (0 : ℚ) < (r.packs_needed : ℚ) := by
      exact_mod_cast lt_of_lt_of_le Int.zero_lt_one hr
    linarith
  unfold addToGroups pyDiv
  rw [if_neg hne]
  refine ⟨_, rfl, ?_⟩
  intro p hp
  rcases List.mem_map.mp hp with ⟨q, hq, rfl⟩
  have hq0 : ∀ p ∈ (if (groups.find? (fun p => p.1 == r.supplier)).isSome
      then groups
      else groups ++ [(r.supplier,
        { supplier_name := r.supplier, order_items := [], total_cost := 0,
          order_status := "pending", notes := "" })]), groupCostOk p.2 := by
    split
    · exact h
    · intro p hp
      rcases List.mem_append.mp hp with hp | hp
      · exact h p hp
      · rcases List.mem_singleton.mp hp with rfl
        simp [groupCostOk]
  have hqok : groupCostOk q.2 := hq0 q hq
  by_cases hkey : q.1 == r.supplier
  · rw [if_pos hkey]
    unfold groupCostOk at hqok ⊢
    simp [hqok]
  · rw [if_neg hkey]
    exact hqok

theorem foldlM_addToGroups_ok (reqs : List OrderLine) :
    ∀ (groups : List (String × SupplierGroup)),
      (∀ r ∈ reqs, 1 ≤ r.packs_needed) →
      (∀ p ∈ groups, groupCostOk p.2) →
      ∃ groups2, reqs.foldlM addToGroups groups = .ok groups2 ∧
        ∀ p ∈ groups2, groupCostOk p.2 := by
  induction reqs with
  | nil =>
    intro groups _ h
    exact ⟨groups, rfl, h⟩
  | cons r rest ih =>
    intro groups hr h
    rcases addToGroups_ok groups r (hr r (by simp)) h with ⟨g1, hg1, hinv1⟩
    rcases ih g1 (fun x hx => hr x (by simp [hx])) hinv1 with ⟨g2, hg2, hinv2⟩
    refine ⟨g2, ?_, hinv2⟩
    rw [List.foldlM_cons, hg1]
    exact hg2

/-- Claim C10: grouping requirement lines by supplier is total under the
precondition `packs_needed ≥ 1` on every line (which the replenishment
computation guarantees via the minimum-order floor), and then every group's
`total_cost` is the sum of its line costs; the unguarded
`total_cost / packs_needed` makes a line with `packs_needed = 0` raise
`ZeroDivisionError` — and such a line reaches the division through the
public confirm-order endpoint, which passes caller-supplied requirement
lines straight through and turns the failure into an HTTP 500. -/
theorem claim_C10_supplier_grouping :
    (∀ (reqs : List OrderLine), (∀ r ∈ reqs, 1 ≤ r.packs_needed) →
      ∃ orders, generate_supplier_orders reqs = .ok orders ∧
        confirm_ai_order reqs =
          .ok (orders, (orders.map (·.total_cost)).sum) ∧
        ∀ g ∈ orders, g.total_cost = (g.order_items.map (·.total_cost)).sum) ∧
    generate_supplier_orders [⟨"x", 0, 1, 1, 0, 7, "S", "low", 1⟩] =
      .error "ZeroDivisionError" ∧
    confirm_ai_order [⟨"x", 0, 1, 1, 0, 7, "S", "low", 1⟩] =
      .error "HTTP 500: Order confirmation error" := by
  refine ⟨?_, by with_unfolding_all rfl, by with_unfolding_all rfl⟩
  intro reqs hr
  rcases foldlM_addToGroups_ok reqs [] hr (by simp) with ⟨g2, hg2, hinv⟩
  refine ⟨g2.map (·.2), ?_, ?_, ?_⟩
  · unfold generate_supplier_orders
    rw [hg2]
    rfl
  · unfold confirm_ai_order generate_supplier_orders
    rw [hg2]
    rfl
  · intro g hg
    rcases List.mem_map.mp hg with ⟨p, hp, rfl⟩
    exact hinv p hp

/-- Claim C10 witness: the grouping theorem applied at a concrete input
satisfying the precondition. -/
theorem claim_C10_witness :
    ∃ orders,
      generate_supplier_orders [⟨"x", 2, 3, 1, 2, 14, "S", "low", 1⟩] =
        .ok orders ∧
      confirm_ai_order [⟨"x", 2, 3, 1, 2, 14, "S", "low", 1⟩] =
        .ok (orders, (orders.map (·.total_cost)).sum) ∧
      ∀ g ∈ orders, g.total_cost = (g.order_items.map (·.total_cost)).sum :=
  claim_C10_supplier_grouping.1 [⟨"x", 2, 3, 1, 2, 14, "S", "low", 1⟩]
    (by
      intro r hrr
      rcases List.mem_singleton.mp hrr with rfl
      norm_num)

/-- Bill-of-materials amount of ingredient `ing` per unit of menu item
`item` under a menu config: 0 when the item is absent. -/
def bomAmount (menuCfg : List (String × List (String × ℚ)))
    (item ing : String) : ℚ :=
  match alookup menuCfg item with
  | none => 0
  | some bom => ((bom.filter (fun q => q.1 == ing)).map (·.2)).sum

/-- The ingredient demand one forecast day contributes, spelled out as the
specification describes it: each derived menu-item count times that item's
bill-of-materials amount. -/
def specDailyDemand (menuCfg : List (String × List (String × ℚ)))
    (daily_sales : ℚ) (ing : String) : ℚ :=
  (pyInt (daily_sales * 0.4 / 4.5) : ℚ) * bomAmount menuCfg "coffee" ing +
  (pyInt (daily_sales * 0.3 / 5.5) : ℚ) * bomAmount menuCfg "latte" ing +
  (pyInt (daily_sales * 0.2 / 8.0) : ℚ) * bomAmount menuCfg "sandwich" ing +
  (pyInt (daily_sales * 0.1 / 3.5) : ℚ) * bomAmount menuCfg "croissant" ing

theorem alookupD_addTo (m : List (String × ℚ)) (k : String) (v : ℚ)
    (ing : String) :
    alookupD (addTo m k v) ing 0 =
      alookupD m ing 0 + (if ing = k then v else 0) := by
  unfold addTo alookupD alookup
  by_cases hpres : ((m.find? (fun p => p.1 == k)).isSome) = true
  · rw [if_pos hpres]
    have hcomp : ((fun p : String × ℚ => p.1 == ing) ∘
        (fun p : String × ℚ => if p.1 == k then (p.1, p.2 + v) else p)) =
        (fun p : String × ℚ => p.1 == ing) := by
      funext q
      by_cases hq : q.1 = k <;> simp [Function.comp, hq]
    rw [List.find?_map, hcomp]
    rcases hfind : m.find? (fun p => p.1 == ing) with _ | q0
    · have hik : ¬ ing = k := by
        intro h
        subst h
        rw [hfind] at hpres
        simp at hpres
      rw [hfind]
      simp [hik]
    · have hq0 : q0.1 = ing := by simpa using List.find?_some hfind
      rw [hfind]
      by_cases hik : ing = k
      · subst hik
        simp [Function.comp, hq0]
      · rw [if_neg hik]
        simp [Function.comp, hq0, hik]
  · rw [if_neg hpres]
    rw [List.find?_append]
    rcases hfind : m.find? (fun p => p.1 == ing) with _ | q0
    · rw [hfind]
      by_cases hik : ing = k
      · subst hik
        simp
      · have hk : (k == ing) = false := by
          simp
          exact fun h => hik h.symm
        simp [hk, hik]
    · have hik : ¬ ing = k := by
        intro h
        subst h
        rw [hfind] at hpres
        simp at hpres
      rw [hfind]
      simp [hik]

theorem alookupD_bomFold (ing : String) (bom : List (String × ℚ)) (c : ℚ) :
    ∀ acc, alookupD
        (bom.foldl (fun acc2 q => addTo acc2 q.1 (c * q.2)) acc) ing 0 =
      alookupD acc ing 0 +
        c * ((bom.filter (fun q => q.1 == ing)).map (·.2)).sum := by
  induction bom with
  | nil => intro acc; simp
  | cons q rest ih =>
    intro acc
    rw [List.foldl_cons, ih, alookupD_addTo, List.filter_cons]
    by_cases h : ing = q.1
    · rw [if_pos h, if_pos (by simp [h.symm])]
      simp only [List.map_cons, List.sum_cons]
      ring
    · rw [if_neg h, if_neg (by simp; exact fun hq => h hq.symm)]
      ring

/-- Total demand a counts dict represents for one ingredient. -/
def weightedSum (menuCfg : List (String × List (String × ℚ)))
    (ing : String) (m : List (String × ℚ)) : ℚ :=
  (m.map (fun p => p.2 * bomAmount menuCfg p.1 ing)).sum

theorem alookupD_ingredientRequirementsOf
    (menuCfg : List (String × List (String × ℚ)))
    (counts : List (String × ℚ)) (ing : String) :
    alookupD (ingredientRequirementsOf menuCfg counts) ing 0 =
      weightedSum menuCfg ing counts := by
  suffices h : ∀ acc, alookupD
      (counts.foldl (fun acc p =>
        match alookup menuCfg p.1 with
        | none => acc
        | some bom =>
          bom.foldl (fun acc2 q => addTo acc2 q.1 (p.2 * q.2)) acc) acc)
        ing 0 =
      alookupD acc ing 0 + weightedSum menuCfg ing counts by
    have h0 := h []
    unfold ingredientRequirementsOf
    rw [h0]
    simp [alookupD, alookup]
  induction counts with
  | nil => intro acc; simp [weightedSum]
  | cons p rest ih =>
    intro acc
    rw [List.foldl_cons]
    rcases hbm : alookup menuCfg p.1 with _ | bom
    · dsimp only
      rw [ih]
      unfold weightedSum bomAmount
      simp only [List.map_cons, List.sum_cons]
      rw [hbm]
      ring
    · dsimp only
      rw [ih, alookupD_bomFold]
      unfold weightedSum bomAmount
      simp only [List.map_cons, List.sum_cons]
      rw [hbm]
      ring

theorem map_update_id {k : String} {v : ℚ} (l : List (String × ℚ))
    (h : ∀ q ∈ l, q.1 ≠ k) :
    l.map (fun p => if p.1 == k then (p.1, p.2 + v) else p) = l := by
  induction l with
  | nil => rfl
  | cons q rest ih =>
    have hq : ¬((q.1 == k) = true) := by
      simp
      exact h q (by simp)
    rw [List.map_cons, if_neg hq, ih (fun x hx => h x (by simp [hx]))]

theorem weightedSum_addTo (menuCfg : List (String × List (String × ℚ)))
    (ing k : String) (v : ℚ) :
    ∀ (m : List (String × ℚ)), (m.map Prod.fst).Nodup →
      weightedSum menuCfg ing (addTo m k v) =
        weightedSum menuCfg ing m + v * bomAmount menuCfg k ing := by
  intro m
  induction m with
  | nil =>
    intro _
    simp [addTo, weightedSum]
  | cons p rest ih =>
    intro hnd
    rw [List.map_cons, List.nodup_cons] at hnd
    by_cases hpk : p.1 = k
    · have hpres : (((p :: rest).find? (fun q => q.1 == k)).isSome) = true := by
        rw [List.find?_cons_of_pos _ (by simp [hpk])]
        rfl
      have hrest : ∀ q ∈ rest, q.1 ≠ k := by
        intro q hq hqk
        apply hnd.1
        rw [hpk, ← hqk]
        exact List.mem_map.mpr ⟨q, hq, rfl⟩
      unfold addTo
      rw [if_pos hpres, List.map_cons, if_pos (by simp [hpk]),
        map_update_id rest hrest]
      unfold weightedSum
      simp only [List.map_cons, List.sum_cons]
      rw [hpk]
      ring
    · by_cases hpres : ((rest.find? (fun q => q.1 == k)).isSome) = true
      · have hall : (((p :: rest).find? (fun q => q.1 == k)).isSome) = true := by
          rw [List.find?_cons_of_neg _ (by simp [hpk])]
          exact hpres
        have hrw : rest.map (fun q => if q.1 == k then (q.1, q.2 + v) else q) =
            addTo rest k v := by
          unfold addTo
          rw [if_pos hpres]
        unfold addTo
        rw [if_pos hall, List.map_cons, if_neg (by simp [hpk]), hrw]
        have := ih hnd.2
        unfold weightedSum at this ⊢
        simp only [List.map_cons, List.sum_cons]
        rw [this]
        ring
      · have hall : (((p :: rest).find? (fun q => q.1 == k)).isSome) = false := by
          rw [List.find?_cons_of_neg _ (by simp [hpk])]
          simp only [Bool.not_eq_true] at hpres
          exact hpres
        unfold addTo
        rw [if_neg (by simp [hall])]
        unfold weightedSum
        simp only [List.map_append, List.sum_append, List.map_cons,
          List.sum_cons, List.map_nil, List.sum_nil]
        ring

theorem keys_addTo (m : List (String × ℚ)) (k : String) (v : ℚ) :
    (addTo m k v).map Prod.fst =
      if ((m.find? (fun p => p.1 == k)).isSome) = true then m.map Prod.fst
      else m.map Prod.fst ++ [k] := by
  unfold addTo
  split
  · rw [List.map_map]
    refine List.map_congr_left ?_
    intro q _
    by_cases hq : q.1 = k <;> simp [Function.comp, hq]
  · simp

theorem keysNodup_addTo (m : List (String × ℚ)) (k : String) (v : ℚ)
    (h : (m.map Prod.fst).Nodup) : ((addTo m k v).map Prod.fst).Nodup := by
  rw [keys_addTo]
  split
  · exact h
  · rename_i hnone
    have hk : k ∉ m.map Prod.fst := by
      intro hmem
      rcases List.mem_map.mp hmem with ⟨q, hq, hqk⟩
      have := List.find?_eq_none.mp (by
        rcases hfind : m.find? (fun p => p.1 == k) with _ | q0
        · rfl
        · rw [hfind] at hnone
          simp at hnone) q hq
      simp [hqk] at this
    simp [List.nodup_append, h, hk]

theorem weightedSum_dailyStep (menuCfg : List (String × List (String × ℚ)))
    (ing : String) (m : List (String × ℚ)) (d : ℚ)
    (h : (m.map Prod.fst).Nodup) :
    weightedSum menuCfg ing (dailyStep m d) =
      weightedSum menuCfg ing m + specDailyDemand menuCfg d ing := by
  unfold dailyStep specDailyDemand
  dsimp only
  rw [weightedSum_addTo _ _ _ _ _
      (keysNodup_addTo _ _ _ (keysNodup_addTo _ _ _ (keysNodup_addTo _ _ _ h))),
    weightedSum_addTo _ _ _ _ _ (keysNodup_addTo _ _ _ (keysNodup_addTo _ _ _ h)),
    weightedSum_addTo _ _ _ _ _ (keysNodup_addTo _ _ _ h),
    weightedSum_addTo _ _ _ _ _ h]
  ring

theorem keysNodup_dailyStep (m : List (String × ℚ)) (d : ℚ)
    (h : (m.map Prod.fst).Nodup) :
    ((dailyStep m d).map Prod.fst).Nodup := by
  unfold dailyStep
  dsimp only
  exact keysNodup_addTo _ _ _
    (keysNodup_addTo _ _ _ (keysNodup_addTo _ _ _ (keysNodup_addTo _ _ _ h)))

theorem weightedSum_foldl_dailyStep
    (menuCfg : List (String × List (String × ℚ))) (ing : String)
    (sales : List ℚ) :
    ∀ (acc : List (String × ℚ)), (acc.map Prod.fst).Nodup →
      weightedSum menuCfg ing (sales.foldl dailyStep acc) =
        weightedSum menuCfg ing acc +
          (sales.map (fun d => specDailyDemand menuCfg d ing)).sum := by
  induction sales with
  | nil => intro acc _; simp
  | cons d rest ih =>
    intro acc hnd
    rw [List.foldl_cons, ih (dailyStep acc d) (keysNodup_dailyStep acc d hnd),
      weightedSum_dailyStep menuCfg ing acc d hnd]
    simp only [List.map_cons, List.sum_cons]
    ring

theorem range_map_getD (l : List ℚ) :
    (List.range l.length).map (fun i => l.getD i 0) = l := by
  induction l with
  | nil => rfl
  | cons a t ih =>
    rw [List.length_cons, List.range_succ_eq_map, List.map_cons,
      List.map_map]
    refine congrArg (a :: ·) ?_
    calc (List.range t.length).map ((fun i => (a :: t).getD i 0) ∘ Nat.succ)
        = (List.range t.length).map (fun i => t.getD i 0) := by
          refine List.map_congr_left ?_
          intro i _
          simp [Function.comp]
      _ = t := ih

/-- Claim C8: the forecast-to-ingredient translation is a function of its
inputs, and for every ingredient its result is the sum over the horizon's
days of each derived menu-item quantity times that item's bill-of-materials
amount for the ingredient; a menu item missing from the bill-of-materials
contributes zero demand and is skipped rather than raising. -/
theorem claim_C8_forecast_translation :
    (∀ (menuCfg : List (String × List (String × ℚ)))
        (f : ForecastData) (ing : String),
      f.dates.length = f.predicted_sales.length →
      alookupD (ingredientRequirementsOf menuCfg (totalMenuItems f)) ing 0 =
        (f.predicted_sales.map
          (fun daily => specDailyDemand menuCfg daily ing)).sum) ∧
    (∀ (menuCfg : List (String × List (String × ℚ)))
        (counts : List (String × ℚ)) (item : String) (q : ℚ),
      alookup menuCfg item = none →
      ingredientRequirementsOf menuCfg (counts ++ [(item, q)]) =
        ingredientRequirementsOf menuCfg counts) := by
  constructor
  · intro menuCfg f ing hlen
    rw [alookupD_ingredientRequirementsOf]
    unfold totalMenuItems
    rw [hlen, range_map_getD,
      weightedSum_foldl_dailyStep menuCfg ing f.predicted_sales [] (by simp)]
    simp [weightedSum]
  · intro menuCfg counts item q hnone
    unfold ingredientRequirementsOf
    rw [List.foldl_append, List.foldl_cons]
    dsimp only
    rw [hnone, List.foldl_nil]

/-- Claim C8 witness: the translation theorem applied at a concrete
forecast with matching lengths. -/
theorem claim_C8_witness :
    alookupD (ingredientRequirementsOf defaultMenuItems
        (totalMenuItems ⟨["d1"], [450]⟩)) "milk" 0 =
      ([(450 : ℚ)].map
        (fun daily => specDailyDemand defaultMenuItems daily "milk")).sum :=
  claim_C8_forecast_translation.1 defaultMenuItems ⟨["d1"], [450]⟩ "milk" rfl

theorem urgency_tiers (d L : ℚ) :
    (urgencyOf d L = "critical" ↔ d < L) ∧
    (urgencyOf d L = "high" ↔ L ≤ d ∧ d < L + 3) ∧
    (urgencyOf d L = "medium" ↔ L + 3 ≤ d ∧ d < L + 7) ∧
    (urgencyOf d L = "low" ↔ L + 7 ≤ d) := by
  unfold urgencyOf
  by_cases h1 : d < L
  · rw [if_pos h1]
    refine ⟨iff_of_true rfl h1, ?_, ?_, ?_⟩
    · refine iff_of_false (by decide) ?_
      rintro ⟨ha, -⟩
      linarith
    · refine iff_of_false (by decide) ?_
      rintro ⟨ha, -⟩
      linarith
    · refine iff_of_false (by decide) ?_
      intro ha
      linarith
  · rw [if_neg h1]
    push_neg at h1
    by_cases h2 : d < L + 3
    · rw [if_pos h2]
      refine ⟨iff_of_false (by decide) (not_lt.mpr h1),
        iff_of_true rfl ⟨h1, h2⟩, ?_, ?_⟩
      · refine iff_of_false (by decide) ?_
        rintro ⟨ha, -⟩
        linarith
      · refine iff_of_false (by decide) ?_
        intro ha
        linarith
    · rw [if_neg h2]
      push_neg at h2
      by_cases h3 : d < L + 7
      · rw [if_pos h3]
        refine ⟨iff_of_false (by decide) (not_lt.mpr h1),
          ?_, iff_of_true rfl ⟨h2, h3⟩, ?_⟩
        · refine iff_of_false (by decide) ?_
          rintro ⟨-, hb⟩
          linarith
        · refine iff_of_false (by decide) ?_
          intro ha
          linarith
      · rw [if_neg h3]
        push_neg at h3
        refine ⟨iff_of_false (by decide) ?_,
          iff_of_false (by decide) ?_, iff_of_false (by decide) ?_,
          iff_of_true rfl h3⟩
        · intro hc
          linarith
        · rintro ⟨-, hb⟩
          linarith
        · rintro ⟨-, hb⟩
          linarith

/-- Claim C6, counterexample against the claim's pack-rounding and its
urgency example, on the real pipeline with the built-in catalogs: a
seven-day forecast of 450 per day gives lettuce a net requirement of
exactly 1.5 with pack size 1, and the code orders 1 pack, not
`ceil(1.5) = 2`; the same run gives sugar `daysUntilStockout = 5.0` with
`leadTimeDays = 2`, and the code classifies it `"medium"`, not the
claim's `"high"`. -/
theorem claim_C6_counterexample :
    ((calculate_ingredient_requirements defaultMenuItems defaultSuppliers
        ⟨["d1", "d2", "d3", "d4", "d5", "d6", "d7"],
         [450, 450, 450, 450, 450, 450, 450]⟩
        [("lettuce", 0.04), ("sugar", 4.4)]).filter
      (fun l => l.ingredient_name == "lettuce")).map
        (fun l => (l.required_amount - l.current_stock, l.pack_size,
          l.packs_needed)) = [(1.5, 1, 1)] ∧
    (1 : ℤ) ≠ 2 ∧
    ((calculate_ingredient_requirements defaultMenuItems defaultSuppliers
        ⟨["d1", "d2", "d3", "d4", "d5", "d6", "d7"],
         [450, 450, 450, 450, 450, 450, 450]⟩
        [("lettuce", 0.04), ("sugar", 4.4)]).filter
      (fun l => l.ingredient_name == "sugar")).map
        (fun l => (l.current_stock / (l.required_amount / 7),
          l.lead_time_days, l.urgency)) = [(5, 2, "medium")] ∧
    ("medium" : String) ≠ "high" := by
  exact ⟨by with_unfolding_all rfl, by decide,
    by with_unfolding_all rfl, by decide⟩

/-- Claim C6 (amended): for an ingredient with a positive requirement and a
supplier entry, a line is produced iff `net = max(0, required − stock)` is
positive (net 0 omitted); `totalCost = packsNeeded * costPerPack`;
`packsNeeded` is `max(minOrder, int((net + packSize − 1)/packSize))`, which
equals `ceil(net/packSize)` (floored up to `minOrder`) whenever `net` is a
whole number of units but can undershoot the ceiling for fractional `net`
(e.g. net 1.5, pack 1 gives 1); and with
`daysUntilStockout = stock/(required/days)` the tiers are exactly:
critical iff `d < leadTime`, high iff `leadTime ≤ d < leadTime + 3`,
medium iff `leadTime + 3 ≤ d < leadTime + 7`, low iff `leadTime + 7 ≤ d`
(so `d = 5.0` with lead time 2 is medium, not high). -/
theorem claim_C6_requirement_lines :
    ∀ (sup : SupplierInfo) (n : ℕ) (stock required : ℚ) (ing : String),
      0 < sup.pack_size → 0 ≤ stock → 0 < required → 0 < n →
      (requirementLine sup n stock required ing = none ↔
        max 0 (required - stock) = 0) ∧
      (∀ line, requirementLine sup n stock required ing = some line →
        line.current_stock = stock ∧ line.required_amount = required ∧
        line.total_cost = (line.packs_needed : ℚ) * sup.cost_per_pack ∧
        (∀ m k : ℕ, max 0 (required - stock) = (m : ℚ) →
          sup.pack_size = (k : ℚ) → 0 < k →
          ∃ p0 : ℤ, line.packs_needed = max p0 sup.min_order ∧
            (m : ℚ) ≤ (p0 : ℚ) * (k : ℚ) ∧
            ((p0 : ℚ) - 1) * (k : ℚ) < (m : ℚ)) ∧
        ((line.urgency = "critical" ↔
            stock / (required / (n : ℚ)) < sup.lead_time_days) ∧
         (line.urgency = "high" ↔
            sup.lead_time_days ≤ stock / (required / (n : ℚ)) ∧
            stock / (required / (n : ℚ)) < sup.lead_time_days + 3) ∧
         (line.urgency = "medium" ↔
            sup.lead_time_days + 3 ≤ stock / (required / (n : ℚ)) ∧
            stock / (required / (n : ℚ)) < sup.lead_time_days + 7) ∧
         (line.urgency = "low" ↔
            sup.lead_time_days + 7 ≤ stock / (required / (n : ℚ))))) := by
  intro sup n stock required ing hpack hstock hreq hn
  constructor
  · unfold requirementLine
    dsimp only
    by_cases hpos : 0 < max 0 (required - stock)
    · rw [if_pos hpos]
      refine iff_of_false (by simp) ?_
      intro h0
      rw [h0] at hpos
      exact lt_irrefl 0 hpos
    · rw [if_neg hpos]
      exact iff_of_true rfl
        (le_antisymm (not_lt.mp hpos) (le_max_left 0 (required - stock)))
  · intro line hline
    unfold requirementLine at hline
    dsimp only at hline
    by_cases hpos : 0 < max 0 (required - stock)
    · rw [if_pos hpos] at hline
      injection hline with hline
      subst hline
      refine ⟨rfl, rfl, rfl, ?_, ?_⟩
      · intro m k hm hk hk0
        refine ⟨pyInt ((max 0 (required - stock) + sup.pack_size - 1) /
          sup.pack_size), rfl, ?_, ?_⟩
        · rw [hm, hk]
          have hkq : (0 : ℚ) < (k : ℚ) := by exact_mod_cast hk0
          have hx0 : (0 : ℚ) ≤ ((m : ℚ) + (k : ℚ) - 1) / (k : ℚ) := by
            apply div_nonneg _ (le_of_lt hkq)
            have h1k : (1 : ℚ) ≤ (k : ℚ) := by exact_mod_cast hk0
            have hm0 : (0 : ℚ) ≤ (m : ℚ) := by positivity
            linarith
          unfold pyInt
          rw [if_pos hx0]
          have hlb := Int.lt_floor_add_one
            (((m : ℚ) + (k : ℚ) - 1) / (k : ℚ))
          rw [div_lt_iff₀ hkq] at hlb
          have hqlt : (m : ℚ) - 1 <
              (⌊((m : ℚ) + (k : ℚ) - 1) / (k : ℚ)⌋ : ℚ) * (k : ℚ) := by
            nlinarith
          have hzlt : (m : ℤ) - 1 <
              ⌊((m : ℚ) + (k : ℚ) - 1) / (k : ℚ)⌋ * (k : ℤ) := by
            exact_mod_cast hqlt
          have hzle : (m : ℤ) ≤
              ⌊((m : ℚ) + (k : ℚ) - 1) / (k : ℚ)⌋ * (k : ℤ) := by omega
          exact_mod_cast hzle
        · rw [hm, hk]
          have hkq : (0 : ℚ) < (k : ℚ) := by exact_mod_cast hk0
          have hx0 : (0 : ℚ) ≤ ((m : ℚ) + (k : ℚ) - 1) / (k : ℚ) := by
            apply div_nonneg _ (le_of_lt hkq)
            have h1k : (1 : ℚ) ≤ (k : ℚ) := by exact_mod_cast hk0
            have hm0 : (0 : ℚ) ≤ (m : ℚ) := by positivity
            linarith
          unfold pyInt
          rw [if_pos hx0]
          have hub := Int.floor_le (((m : ℚ) + (k : ℚ) - 1) / (k : ℚ))
          rw [le_div_iff₀ hkq] at hub
          nlinarith
      · exact urgency_tiers (stock / (required / (n : ℚ)))
          sup.lead_time_days
    · rw [if_neg hpos] at hline
      exact absurd hline (by simp)

/-- Claim C6 witness: the amended theorem applied at a concrete supplier
entry and demand. -/
theorem claim_C6_witness :
    requirementLine ⟨"S", 1, 4, 1, 1⟩ 1 0 2 "lettuce" = none ↔
      max 0 ((2 : ℚ) - 0) = 0 :=
  (claim_C6_requirement_lines ⟨"S", 1, 4, 1, 1⟩ 1 0 2 "lettuce"
    (by norm_num) (by norm_num) (by norm_num) (by norm_num)).1

end SmartStock
